import Mathlib

/-!
Shallow embedding of the VideoTrimmer repository (Python) in Lean 4.

Strings from the Python side are modelled as `List Char`.  Python `float`
values are modelled as `ℚ` (the spec's round-trip claim is stated "within
float tolerance"; all values arising from parsed timecodes are exact
multiples of 1/1000, so the rational model is exact on them).  A Python
function that can raise is modelled with `Option`/`Except`, the error
value standing for the raised exception.

Character classes: Python's `\d` and `int()`/`float()` accept some exotic
Unicode digits; the model restricts to ASCII digits, the only ones the
application ever produces.
-/

namespace VideoTrimmer

/-- ASCII digit test, modelling the regex class `\d` (restricted to ASCII). -/
def isDigitC (c : Char) : Bool := 48 ≤ c.toNat && c.toNat ≤ 57

/-- Numeric value of a digit character. -/
def digitVal (c : Char) : Nat := c.toNat - 48

/-- Value of a big-endian digit string, as computed by Python `int()` on an
all-digit string. -/
def natOfDigits (l : List Char) : Nat := l.foldl (fun a c => 10 * a + digitVal c) 0

/-- Python `int(s)` on the strings reachable here (all-digit, non-empty);
`none` models the `ValueError` raised otherwise. -/
def parseIntP (l : List Char) : Option Nat :=
  if l ≠ [] ∧ l.all isDigitC then some (natOfDigits l) else none

/-- Python `str.split(sep)` for a one-character separator.  Like Python's,
the result is always non-empty and splitting `""` gives `[""]`. -/
def splitOnC (sep : Char) : List Char → List (List Char)
  | [] => [[]]
  | x :: xs =>
    if x = sep then [] :: splitOnC sep xs
    else (splitOnC sep xs).modifyHead (x :: ·)

/-- Python `float(s)` restricted to unsigned decimal literals
(`digits`, `digits.digits`, `digits.`, `.digits`) — the only shapes the
application feeds it; `none` models the `ValueError` on anything else. -/
def parseFloatP (l : List Char) : Option ℚ :=
  match splitOnC '.' l with
  | [ip] => if ip ≠ [] ∧ ip.all isDigitC then some (natOfDigits ip) else none
  | [ip, fp] =>
    if (ip ≠ [] ∨ fp ≠ []) ∧ ip.all isDigitC ∧ fp.all isDigitC then
      some ((natOfDigits ip : ℚ) + (natOfDigits fp : ℚ) / 10 ^ fp.length)
    else none
  | _ => none

/-- Decimal representation of a natural number (no padding); `natRepr 0`
is `"0"` after zero-padding, which is all the code ever does with it. -/
def natRepr (n : Nat) : List Char := Nat.toDigits 10 n

/-- Python `f"{n:02d}"`: decimal, left-padded with zeros to width 2. -/
def fmt2 (n : Nat) : List Char :=
  let r := natRepr n
  List.replicate (2 - r.length) '0' ++ r

/-- Executable floor of a non-negative rational into `Nat` (Python `int()`
and `//` on the non-negative values the code reaches). -/
def ratFloorN (q : ℚ) : Nat := (q.num / (q.den : Int)).toNat

end VideoTrimmer

namespace VideoTrimmer

/-! ### `src/services/timecode_utils.py` -/

/-- The optional `(?:[:.]\d{1,3})?` suffix of the timecode pattern. -/
def msOk : List Char → Bool
  | [] => true
  | g :: ms =>
    (decide (g = ':') || decide (g = '.')) && decide (1 ≤ ms.length) &&
      decide (ms.length ≤ 3) && ms.all isDigitC

/-- `validate_timecode`: Python `re.match(r'^\d{2}:\d{2}:\d{2}(?:[:.]\d{1,3})?$', tc)`
(the `$` anchor modelled as end of string). -/
def validate_timecode : List Char → Bool
  | a :: b :: c2 :: c :: d :: c5 :: e :: f :: rest =>
    isDigitC a && isDigitC b && decide (c2 = ':') && isDigitC c && isDigitC d &&
      decide (c5 = ':') && isDigitC e && isDigitC f && msOk rest
  | _ => false

/-- `timecode_to_seconds`: validates, then branches on the number of colons;
`none` models the `ValueError` raised on an invalid format. -/
def timecode_to_seconds (tc : List Char) : Option ℚ :=
  if validate_timecode tc then
    if tc.count ':' = 3 then
      match splitOnC ':' tc with
      | [p0, p1, p2, p3] => do
        let hours ← parseIntP p0
        let minutes ← parseIntP p1
        let seconds ← parseIntP p2
        let milliseconds ← parseIntP p3
        pure ((hours : ℚ) * 3600 + minutes * 60 + seconds + (milliseconds : ℚ) / 1000)
      | _ => none
    else
      match splitOnC ':' tc with
      | [p0, p1, p2] => do
        let hours ← parseIntP p0
        let minutes ← parseIntP p1
        let seconds ← if p2.contains '.' then parseFloatP p2 else (parseIntP p2).map (Nat.cast)
        pure ((hours : ℚ) * 3600 + minutes * 60 + seconds)
      | _ => none
  else none

/-- Python `f"{secs:06.3f}"` for a non-negative value: three decimals
(ties rounded up; every value reached in the claims is an exact multiple
of 1/1000, so no rounding occurs there), zero-padded to width 6. -/
def pad3 (n : Nat) : List Char :=
  let r := natRepr n
  List.replicate (3 - r.length) '0' ++ r

def fmt6p3 (q : ℚ) : List Char :=
  let n : Nat := ratFloorN (q * 1000 + 1 / 2)
  let body := natRepr (n / 1000) ++ '.' :: pad3 (n % 1000)
  List.replicate (6 - body.length) '0' ++ body

/-- `seconds_to_timecode`; `none` models the `ValueError` on negative input.
Python `//` and `%` on non-negative floats coincide with `Nat.floor`-based
division and remainder on `ℚ`. -/
def seconds_to_timecode (seconds : ℚ) : Option (List Char) :=
  if seconds < 0 then none
  else
    let hours : Nat := ratFloorN (seconds / 3600)
    let minutes : Nat := ratFloorN ((seconds - 3600 * hours) / 60)
    let secs : ℚ := seconds - 60 * ratFloorN (seconds / 60)
    if secs.den = 1 then
      some (fmt2 hours ++ ':' :: fmt2 minutes ++ ':' :: fmt2 (ratFloorN secs))
    else
      some (fmt2 hours ++ ':' :: fmt2 minutes ++ ':' :: fmt6p3 secs)

/-- The round trip of the spec's property §8: parse, re-format, re-parse. -/
def roundTrip (tc : List Char) : Option ℚ := do
  let t ← timecode_to_seconds tc
  let tc1 ← seconds_to_timecode t
  timecode_to_seconds tc1

/-- Python `str.strip()`: drop ASCII whitespace from both ends (the model
covers the whitespace the application can produce). -/
def isSpaceC (c : Char) : Bool := c = ' ' || c = '\t' || c = '\n' || c = '\r'

def stripC (l : List Char) : List Char :=
  (l.dropWhile isSpaceC).reverse.dropWhile isSpaceC |>.reverse

/-- Failure modes of `parse_timecode_range`; each constructor stands for the
`ValueError` raised at the corresponding place in the source. -/
inductive RangeError
  /-- "Invalid timecode range: ... Expected format HH:MM:SS-HH:MM:SS" -/
  | badSplit
  /-- propagated "Invalid timecode format" from `timecode_to_seconds` -/
  | badTimecode
  /-- "End time must be after start time. ..." -/
  | endNotAfterStart
deriving DecidableEq

/-- `parse_timecode_range`: split on `-`, require exactly two parts, parse
both (stripped), require `start < end`. -/
def parse_timecode_range (range_str : List Char) : Except RangeError (ℚ × ℚ) :=
  match splitOnC '-' range_str with
  | [p0, p1] =>
    match timecode_to_seconds (stripC p0) with
    | none => .error .badTimecode
    | some start_seconds =>
      match timecode_to_seconds (stripC p1) with
      | none => .error .badTimecode
      | some end_seconds =>
        if end_seconds ≤ start_seconds then .error .endNotAfterStart
        else .ok (start_seconds, end_seconds)
  | _ => .error .badSplit

/-! ### `src/models/video_segment.py` -/

/-- The Python exception classes that `VideoSegment.time_to_seconds` can
encounter: its `except` clause catches `ValueError` and `AttributeError`
but not `IndexError`. -/
inductive PyExc
  | valueError
  | attributeError
  | indexError
deriving DecidableEq

def exceptDecEq {ε α : Type} [DecidableEq ε] [DecidableEq α] : DecidableEq (Except ε α)
  | .ok a, .ok b =>
    if h : a = b then .isTrue (by rw [h]) else .isFalse (fun hh => h (Except.ok.inj hh))
  | .ok _, .error _ => .isFalse (fun hh => Except.noConfusion hh)
  | .error _, .ok _ => .isFalse (fun hh => Except.noConfusion hh)
  | .error e, .error g =>
    if h : e = g then .isTrue (by rw [h]) else .isFalse (fun hh => h (Except.error.inj hh))

instance {ε α : Type} [DecidableEq ε] [DecidableEq α] : DecidableEq (Except ε α) :=
  exceptDecEq

/-- Python `parts[i]`: `IndexError` when the index is out of range. -/
def pyIndex (parts : List (List Char)) (i : ℕ) : Except PyExc (List Char) :=
  match parts[i]? with
  | some p => .ok p
  | none => .error .indexError

/-- Python `float(s)` raising `ValueError` on failure. -/
def pyFloatE (l : List Char) : Except PyExc ℚ :=
  match parseFloatP l with
  | some q => .ok q
  | none => .error .valueError

/-- The body of the `try` block of `VideoSegment.time_to_seconds`, with every
raise surfaced (evaluation order of the Python statements preserved). -/
def segTimeToSecondsRaw (time_str : List Char) : Except PyExc ℚ :=
  if time_str.count ':' = 3 then
    -- h, m, s, ms = time_str.split(':')  (four parts guaranteed by the count)
    match splitOnC ':' time_str with
    | [h, m, s, ms] => do
      let hv ← pyFloatE h
      let mv ← pyFloatE m
      let sv ← pyFloatE s
      let msv ← pyFloatE ms
      pure (hv * 3600 + mv * 60 + sv + msv / 1000)
    | _ => .error .valueError
  else if time_str.contains '.' then
    -- parts = time_str.split(':'); h, m = float(parts[0]), float(parts[1]); s = float(parts[2])
    let parts := splitOnC ':' time_str
    do
      let hv ← pyFloatE (← pyIndex parts 0)
      let mv ← pyFloatE (← pyIndex parts 1)
      let sv ← pyFloatE (← pyIndex parts 2)
      pure (hv * 3600 + mv * 60 + sv)
  else
    -- h, m, s = map(float, time_str.split(':'))  (a length mismatch raises ValueError)
    match splitOnC ':' time_str with
    | [h, m, s] => do
      let hv ← pyFloatE h
      let mv ← pyFloatE m
      let sv ← pyFloatE s
      pure (hv * 3600 + mv * 60 + sv)
    | _ => .error .valueError

/-- `VideoSegment.time_to_seconds`: the `try` body guarded by
`except (ValueError, AttributeError): return 0.0`.  An `IndexError` escapes. -/
def segTimeToSeconds (time_str : List Char) : Except PyExc ℚ :=
  match segTimeToSecondsRaw time_str with
  | .ok v => .ok v
  | .error .valueError => .ok 0
  | .error .attributeError => .ok 0
  | .error e => .error e

structure VideoSegment where
  start_time : List Char
  end_time : List Char
  fade_in_duration : ℚ := 0
  fade_out_duration : ℚ := 0
  name : Option (List Char) := none
deriving DecidableEq

/-- `VideoSegment.duration`: difference of the two conversions (the end time
is converted first, as in the source). -/
def VideoSegment.duration (seg : VideoSegment) : Except PyExc ℚ := do
  let e ← segTimeToSeconds seg.end_time
  let s ← segTimeToSeconds seg.start_time
  pure (e - s)

/-! ### `src/services/video_processor.py`: the ffmpeg trim command (tier 1) -/

inductive FadeDir
  | fadeIn
  | fadeOut
deriving DecidableEq

/-- One `fade`/`afade` filter: direction, `duration=` and `start_time=`. -/
structure FadeFilter where
  dir : FadeDir
  duration : ℚ
  start : ℚ
deriving DecidableEq

/-- One argv element of the built ffmpeg command.  Plain string arguments are
carried verbatim; arguments produced by `str(<float>)` are carried as the
number itself; the `-filter_complex` graph argument is carried as the
structured list of video and audio fade filters its string denotes. -/
inductive CmdArg
  | lit (s : List Char)
  | num (q : ℚ)
  | filterGraph (video : List FadeFilter) (audio : List FadeFilter)
deriving DecidableEq

/-- The command built by `_trim_segment_with_ffmpeg` (lines 211-294), up to
the point where it is handed to `subprocess.run`. -/
def trimSegmentComplexCmd (video_path : List Char) (seg : VideoSegment)
    (output_path : List Char) : Except PyExc (List CmdArg) := do
  let start_seconds ← segTimeToSeconds seg.start_time
  let end_seconds ← segTimeToSeconds seg.end_time
  let duration := end_seconds - start_seconds
  let fade_in_sec := seg.fade_in_duration
  let fade_out_sec := seg.fade_out_duration
  let cmd : List CmdArg :=
    [.lit ("ffmpeg".data), .lit ("-y".data), .lit ("-i".data), .lit video_path,
     .lit ("-ss".data), .num start_seconds, .lit ("-t".data), .num duration]
  let cmd :=
    if 0 < fade_in_sec ∨ 0 < fade_out_sec then
      let fade_filters : List FadeFilter :=
        (if 0 < fade_in_sec then [⟨.fadeIn, fade_in_sec, 0⟩] else []) ++
          (if 0 < fade_out_sec then [⟨.fadeOut, fade_out_sec, max 0 (duration - fade_out_sec)⟩] else [])
      let audio_filters : List FadeFilter :=
        (if 0 < fade_in_sec then [⟨.fadeIn, fade_in_sec, 0⟩] else []) ++
          (if 0 < fade_out_sec then [⟨.fadeOut, fade_out_sec, max 0 (duration - fade_out_sec)⟩] else [])
      cmd ++ [.lit ("-filter_complex".data), .filterGraph fade_filters audio_filters,
              .lit ("-map".data), .lit ("[v]".data), .lit ("-map".data), .lit ("[a]".data)]
    else cmd
  let cmd := cmd ++
    [.lit ("-c:v".data), .lit ("libx264".data), .lit ("-preset".data), .lit ("medium".data),
     .lit ("-crf".data), .lit ("18".data), .lit ("-c:a".data), .lit ("aac".data),
     .lit ("-b:a".data), .lit ("192k".data), .lit ("-pix_fmt".data), .lit ("yuv420p".data),
     .lit output_path]
  pure cmd

/-- The video fade filters of the first `-filter_complex` argument of a
command (empty when the command carries no filter graph). -/
def videoFadesOf : List CmdArg → List FadeFilter
  | [] => []
  | .filterGraph v _ :: _ => v
  | _ :: rest => videoFadesOf rest

/-! ### The three-tier trim fallback chain -/

/-- Errors `trim_segment` (the OpenCV tier) can raise; each constructor
carries exactly the data interpolated into the Python message. -/
inductive TrimError
  /-- `RuntimeError("No video loaded")` -/
  | noVideoLoaded
  /-- `ValueError(f"Invalid timecode format: ...")` from the utility converter -/
  | invalidTimecode (tc : List Char)
  /-- `ValueError(f"Trim times out of range. Video duration is ... seconds")` -/
  | outOfRange (duration : ℚ)
deriving DecidableEq

/-- Properties of a loaded video relevant to trimming. -/
structure VideoMeta where
  video_path : List Char
  loaded : Bool
  duration : ℚ
  fps : ℚ
  width : ℕ
  height : ℕ

/-- `trim_segment` (the OpenCV last-resort tier): bound checks, then a frame
copy loop that cannot raise (a failed read only breaks the loop). -/
def trim_segment (vp : VideoMeta) (seg : VideoSegment) (output_path : List Char) :
    Except TrimError (List Char) :=
  if vp.loaded = false then .error .noVideoLoaded
  else
    match timecode_to_seconds seg.start_time with
    | none => .error (.invalidTimecode seg.start_time)
    | some start_time =>
      match timecode_to_seconds seg.end_time with
      | none => .error (.invalidTimecode seg.end_time)
      | some end_time =>
        if start_time < 0 ∨ vp.duration < end_time then .error (.outOfRange vp.duration)
        else .ok output_path

/-- Outcome of one external ffmpeg attempt: either an exception somewhere in
the `try` block (command build or `subprocess.run` itself), or a completed
run with an exit code. -/
inductive TierOutcome
  | raised
  | ran (exitCode : ℤ)
deriving DecidableEq

/-- Environment describing what the two external ffmpeg invocations do, plus
whether each attempt leaves a usable (existing, non-empty) output file. -/
structure FfmpegEnv where
  complexRun : TierOutcome
  simpleRun : TierOutcome
  complexOutputOk : Bool
  simpleOutputOk : Bool

inductive Tier
  | ffmpegComplex
  | ffmpegSimple
  | opencv
deriving DecidableEq

/-- `_trim_segment_with_ffmpeg_simple` (tier 2), with the tiers it attempts
recorded in order.  On a non-zero exit code, `trim_segment` is called inside
the `try`; if that raises, the `except` handler calls `trim_segment` once
more, whose error then propagates. -/
def trimWithFfmpegSimple (vp : VideoMeta) (seg : VideoSegment) (output_path : List Char)
    (env : FfmpegEnv) : Except TrimError (List Char) × List Tier :=
  match env.simpleRun with
  | .raised => (trim_segment vp seg output_path, [.ffmpegSimple, .opencv])
  | .ran rc =>
    if rc ≠ 0 then
      match trim_segment vp seg output_path with
      | .ok o => (.ok o, [.ffmpegSimple, .opencv])
      | .error _ => (trim_segment vp seg output_path, [.ffmpegSimple, .opencv, .opencv])
    else (.ok output_path, [.ffmpegSimple])

/-- `_trim_segment_with_ffmpeg` (tier 1 plus fallback chain), with the tiers
it attempts recorded in order.  On a non-zero exit code, tier 2 is called
inside the `try`; if tier 2 raises, the `except` handler calls tier 2 once
more. -/
def trimWithFfmpeg (vp : VideoMeta) (seg : VideoSegment) (output_path : List Char)
    (env : FfmpegEnv) : Except TrimError (List Char) × List Tier :=
  match env.complexRun with
  | .raised =>
    let (r, tr) := trimWithFfmpegSimple vp seg output_path env
    (r, .ffmpegComplex :: tr)
  | .ran rc =>
    if rc ≠ 0 then
      match trimWithFfmpegSimple vp seg output_path env with
      | (.ok o, tr) => (.ok o, .ffmpegComplex :: tr)
      | (.error _, tr) =>
        let (r2, tr2) := trimWithFfmpegSimple vp seg output_path env
        (r2, .ffmpegComplex :: (tr ++ tr2))
    else (.ok output_path, [.ffmpegComplex])

/-! ### `process_segments` -/

inductive ProcessError
  /-- `ValueError("No segments provided")` -/
  | noSegments
  /-- a `TrimError` propagated from the per-segment trim chain -/
  | trimFailed (e : TrimError)
deriving DecidableEq

/-- Filesystem-level actions `process_segments` performs (inside the
temporary directory; paths relative to it). -/
inductive PAction
  | trimTo (i : ℕ) (file : List Char)
  | move (src dst : List Char)
  | concatFiles (files : List (List Char)) (dst : List Char)
deriving DecidableEq

/-- `f"segment_{i}.mp4"`. -/
def segFileName (i : ℕ) : List Char := ("segment_".data) ++ natRepr i ++ (".mp4".data)

/-- The per-segment trim loop of `process_segments`: trims segments
`0..n-1`, accumulating actions and the `segment_files` list; `trimErr i`
is the error the trim chain for segment `i` raises, if any. -/
def processLoop (trimErr : ℕ → Option TrimError) :
    ℕ → Except TrimError (List PAction × List (List Char))
  | 0 => .ok ([], [])
  | n + 1 => do
    let (acts, files) ← processLoop trimErr n
    match trimErr n with
    | some e => .error e
    | none => pure (acts ++ [.trimTo n (segFileName n)], files ++ [segFileName n])

/-- `process_segments`: empty-list check, per-segment trim loop, then either
a single `os.replace` or a concatenation of the per-segment files. -/
def process_segments (segments : List VideoSegment) (output_path : List Char)
    (trimErr : ℕ → Option TrimError) : Except ProcessError (List PAction) :=
  if segments.isEmpty then .error .noSegments
  else
    match processLoop trimErr segments.length with
    | .error e => .error (.trimFailed e)
    | .ok (acts, segment_files) =>
      if segment_files.length = 1 then
        .ok (acts ++ [.move (segment_files.headD []) output_path])
      else
        .ok (acts ++ [.concatFiles segment_files output_path])

/-! ### The frame cache and `get_frame_at_time` -/

/-- A cached frame: `(width, height, frame_bytes)`. -/
abbrev FrameData := ℕ × ℕ × List ℕ

/-- The frame cache, a Python dict in insertion order. -/
abbrev Cache := List (ℕ × FrameData)

def cacheKeys (c : Cache) : List ℕ := c.map Prod.fst

/-- Python dict assignment `cache[k] = v`: replace in place, else append. -/
def dictSet (k : ℕ) (v : FrameData) (c : Cache) : Cache :=
  if (cacheKeys c).contains k then
    c.map fun kv => if kv.1 = k then (k, v) else kv
  else c ++ [(k, v)]

/-- Python `del cache[k]`. -/
def dictDel (k : ℕ) (c : Cache) : Cache := c.filter fun kv => kv.1 ≠ k

/-- Python `min(cache.keys())` (only ever evaluated on a non-empty cache). -/
def minKey (c : Cache) : ℕ := ((cacheKeys c).min?).getD 0

/-- Python `cache[k]` lookup through `k in cache`. -/
def cacheFind (k : ℕ) (c : Cache) : Option FrameData :=
  (c.find? fun kv => kv.1 == k).map Prod.snd

/-- `_add_to_cache`: evict the numerically smallest key when at the capacity
limit of 30, then insert. -/
def add_to_cache (frame_number : ℕ) (frame_data : FrameData) (c : Cache) : Cache :=
  let c := if 30 ≤ c.length then dictDel (minKey c) c else c
  dictSet frame_number frame_data c

/-- Mutable state of a `VideoProcessor` as far as previews are concerned. -/
structure VPState where
  duration : ℚ
  fps : ℚ
  width : ℕ
  height : ℕ
  loaded : Bool
  cache : Cache

/-- `get_frame_at_time`.  `decodeRes` is the oracle for the decode step
(seek + read, including the frame-number fallback seek): `none` when both
reads fail.  The Boolean result records whether the decode step ran at all.
The seek/reopen heuristics do not affect the returned data or the cache and
are abstracted into the oracle. -/
def get_frame_at_time (vp : VPState) (timecode : List Char)
    (decodeRes : Option (List ℕ)) : Option FrameData × VPState × Bool :=
  if vp.loaded = false then (none, vp, false)
  else
    match timecode_to_seconds timecode with
    | none => (none, vp, false)
    | some seconds =>
      if seconds < 0 ∨ vp.duration < seconds then (none, vp, false)
      else
        let frame_number := ratFloorN (seconds * vp.fps)
        match cacheFind frame_number vp.cache with
        | some fd => (some fd, vp, false)
        | none =>
          match decodeRes with
          | none => (none, vp, true)
          | some bytes =>
            let res : FrameData := (vp.width, vp.height, bytes)
            (some res, { vp with cache := add_to_cache frame_number res vp.cache }, true)

/-- A sequence of `get_frame_at_time` calls, each with its decode oracle. -/
def runFrameCalls (vp : VPState) : List (List Char × Option (List ℕ)) → VPState
  | [] => vp
  | (tc, d) :: rest => runFrameCalls (get_frame_at_time vp tc d).2.1 rest

/-! ### `src/utils/config_manager.py` -/

structure FadePreset where
  name : List Char
  fin : ℚ
  fout : ℚ
deriving DecidableEq

/-- The recognized configuration keys, with their documented types. -/
structure AppConfig where
  recent_files : List (List Char)
  max_recent_files : ℕ
  output_directory : List Char
  default_fade_in : ℚ
  default_fade_out : ℚ
  preset_fades : List FadePreset
deriving DecidableEq

def DEFAULT_CONFIG : AppConfig :=
  { recent_files := []
    max_recent_files := 5
    output_directory := []
    default_fade_in := 1 / 2
    default_fade_out := 1 / 2
    preset_fades :=
      [⟨"None".data, 0, 0⟩, ⟨"Gentle".data, 1 / 2, 1 / 2⟩, ⟨"Smooth".data, 1, 1⟩,
       ⟨"Dramatic".data, 0, 2⟩, ⟨"Intro".data, 2, 0⟩] }

/-- A `ConfigManager`: its in-memory config plus the number of completed
rewrites of the JSON file. -/
structure CMState where
  config : AppConfig
  saves : ℕ
deriving DecidableEq

/-- `save_config`: one full rewrite of the file. -/
def save_config (st : CMState) : CMState := { st with saves := st.saves + 1 }

/-- `set("recent_files", value)`: assign, then immediately `save_config`. -/
def setRecentFiles (st : CMState) (value : List (List Char)) : CMState :=
  save_config { st with config := { st.config with recent_files := value } }

/-- `add_recent_file`: drop the first existing occurrence (`list.remove`),
prepend, truncate to `max_recent_files`, then `set` (which saves). -/
def add_recent_file (st : CMState) (file_path : List Char) : CMState :=
  let recent_files := st.config.recent_files
  let recent_files :=
    if file_path ∈ recent_files then recent_files.erase file_path else recent_files
  let recent_files := file_path :: recent_files
  let max_recent := st.config.max_recent_files
  let recent_files :=
    if max_recent < recent_files.length then recent_files.take max_recent else recent_files
  setRecentFiles st recent_files

end VideoTrimmer

/-! ## Helper lemmas: digits, splitting, parsing -/

namespace VideoTrimmer

theorem digitVal_le_of_isDigitC {c : Char} (h : isDigitC c = true) : digitVal c ≤ 9 := by
  simp only [isDigitC, Bool.and_eq_true, decide_eq_true_eq] at h
  unfold digitVal
  omega

theorem digit_ne_colon {c : Char} (h : isDigitC c = true) : c ≠ ':' := by
  intro hc; subst hc; simp [isDigitC] at h

theorem digit_ne_dot {c : Char} (h : isDigitC c = true) : c ≠ '.' := by
  intro hc; subst hc; simp [isDigitC] at h

theorem natOfDigits_pair (a b : Char) :
    natOfDigits [a, b] = 10 * digitVal a + digitVal b := by
  simp [natOfDigits]

theorem parseIntP_eq (l : List Char) (h0 : l ≠ []) (h1 : l.all isDigitC = true) :
    parseIntP l = some (natOfDigits l) := by
  simp [parseIntP, h0, h1]

theorem foldl_digits_lt (l : List Char) (h : l.all isDigitC = true) :
    ∀ acc : ℕ, l.foldl (fun a c => 10 * a + digitVal c) acc < (acc + 1) * 10 ^ l.length := by
  induction l with
  | nil => intro acc; simp
  | cons c cs ih =>
    intro acc
    simp only [List.all_cons, Bool.and_eq_true] at h
    have hc := digitVal_le_of_isDigitC h.1
    calc (c :: cs).foldl (fun a c => 10 * a + digitVal c) acc
        = cs.foldl (fun a c => 10 * a + digitVal c) (10 * acc + digitVal c) := rfl
      _ < (10 * acc + digitVal c + 1) * 10 ^ cs.length := ih h.2 _
      _ ≤ ((acc + 1) * 10) * 10 ^ cs.length := by
          apply Nat.mul_le_mul_right
          omega
      _ = (acc + 1) * 10 ^ (c :: cs).length := by
          rw [List.length_cons, pow_succ]
          ring

theorem natOfDigits_lt {l : List Char} (h : l.all isDigitC = true) :
    natOfDigits l < 10 ^ l.length := by
  have := foldl_digits_lt l h 0
  simpa [natOfDigits] using this

theorem splitOnC_cons_sep (sep : Char) (xs : List Char) :
    splitOnC sep (sep :: xs) = [] :: splitOnC sep xs := by
  simp [splitOnC]

theorem splitOnC_cons_ne {x sep : Char} (h : x ≠ sep) (xs : List Char) :
    splitOnC sep (x :: xs) = (splitOnC sep xs).modifyHead (x :: ·) := by
  simp [splitOnC, h]

theorem splitOnC_no_sep {sep : Char} {l : List Char} (h : sep ∉ l) :
    splitOnC sep l = [l] := by
  induction l with
  | nil => rfl
  | cons x xs ih =>
    rw [splitOnC_cons_ne (by simp at h; exact fun hx => h.1 hx.symm) xs]
    rw [ih (by simp at h; exact h.2)]
    rfl

theorem not_mem_of_all_digits (sep : Char) {l : List Char} (hsep : isDigitC sep = false)
    (h : l.all isDigitC = true) : sep ∉ l := by
  intro hm
  have := List.all_eq_true.mp h sep hm
  rw [hsep] at this
  exact Bool.false_ne_true this

theorem count_eq_zero_of_digits (sep : Char) {l : List Char} (hsep : isDigitC sep = false)
    (h : l.all isDigitC = true) : List.count sep l = 0 :=
  List.count_eq_zero.mpr (not_mem_of_all_digits sep hsep h)

theorem parse_plain {a b c d e f : Char}
    (ha : isDigitC a = true) (hb : isDigitC b = true) (hc : isDigitC c = true)
    (hd : isDigitC d = true) (he : isDigitC e = true) (hf : isDigitC f = true) :
    timecode_to_seconds [a, b, ':', c, d, ':', e, f] =
      some (((10 * digitVal a + digitVal b : ℕ) : ℚ) * 3600 +
        ((10 * digitVal c + digitVal d : ℕ) : ℚ) * 60 +
        ((10 * digitVal e + digitVal f : ℕ) : ℚ)) := by
  have hval : validate_timecode [a, b, ':', c, d, ':', e, f] = true := by
    simp [validate_timecode, msOk, ha, hb, hc, hd, he, hf]
  have hsplit : splitOnC ':' [a, b, ':', c, d, ':', e, f] = [[a, b], [c, d], [e, f]] := by
    rw [splitOnC_cons_ne (digit_ne_colon ha), splitOnC_cons_ne (digit_ne_colon hb),
        splitOnC_cons_sep, splitOnC_cons_ne (digit_ne_colon hc),
        splitOnC_cons_ne (digit_ne_colon hd), splitOnC_cons_sep,
        splitOnC_cons_ne (digit_ne_colon he), splitOnC_cons_ne (digit_ne_colon hf)]
    rfl
  have hcount : List.count ':' [a, b, ':', c, d, ':', e, f] = 2 := by
    simp [List.count_cons, digit_ne_colon ha, digit_ne_colon hb, digit_ne_colon hc,
      digit_ne_colon hd, digit_ne_colon he, digit_ne_colon hf]
  have hcontains : ([e, f] : List Char).contains '.' = false := by
    simp [List.contains]
    constructor
    · exact fun h1 => absurd h1.symm (digit_ne_dot he)
    · exact fun h1 => absurd h1.symm (digit_ne_dot hf)
  rw [timecode_to_seconds, if_pos hval, hcount]
  norm_num
  rw [hsplit]
  simp only [List.contains] at hcontains
  have p1 := parseIntP_eq [a, b] (by simp) (by simp [ha, hb])
  have p2 := parseIntP_eq [c, d] (by simp) (by simp [hc, hd])
  have p3 := parseIntP_eq [e, f] (by simp) (by simp [he, hf])
  simp [hcontains, p1, p2, p3, natOfDigits_pair]
  intro h1
  rcases h1 with h1 | h1
  · exact absurd h1.symm (digit_ne_dot he)
  · exact absurd h1.symm (digit_ne_dot hf)

theorem parse_dot {a b c d e f : Char} {ms : List Char}
    (ha : isDigitC a = true) (hb : isDigitC b = true) (hc : isDigitC c = true)
    (hd : isDigitC d = true) (he : isDigitC e = true) (hf : isDigitC f = true)
    (hms : ms.all isDigitC = true) (hlen1 : 1 ≤ ms.length) (hlen3 : ms.length ≤ 3) :
    timecode_to_seconds (a :: b :: ':' :: c :: d :: ':' :: e :: f :: '.' :: ms) =
      some (((10 * digitVal a + digitVal b : ℕ) : ℚ) * 3600 +
        ((10 * digitVal c + digitVal d : ℕ) : ℚ) * 60 +
        (((10 * digitVal e + digitVal f : ℕ) : ℚ) + (natOfDigits ms : ℚ) / 10 ^ ms.length)) := by
  have hcolon_ms : (':' : Char) ∉ ms := not_mem_of_all_digits _ (by decide) hms
  have hdot_ms : ('.' : Char) ∉ ms := not_mem_of_all_digits _ (by decide) hms
  have hval : validate_timecode (a :: b :: ':' :: c :: d :: ':' :: e :: f :: '.' :: ms) = true := by
    simp [validate_timecode, msOk, ha, hb, hc, hd, he, hf, hms, hlen1, hlen3]
  have hsplit : splitOnC ':' (a :: b :: ':' :: c :: d :: ':' :: e :: f :: '.' :: ms) =
      [[a, b], [c, d], e :: f :: '.' :: ms] := by
    rw [splitOnC_cons_ne (digit_ne_colon ha), splitOnC_cons_ne (digit_ne_colon hb),
        splitOnC_cons_sep, splitOnC_cons_ne (digit_ne_colon hc),
        splitOnC_cons_ne (digit_ne_colon hd), splitOnC_cons_sep,
        splitOnC_no_sep (by
          intro hmem
          simp only [List.mem_cons] at hmem
          rcases hmem with h1 | h1 | h1 | h1
          · exact digit_ne_colon he h1.symm
          · exact digit_ne_colon hf h1.symm
          · exact absurd h1 (by decide)
          · exact hcolon_ms h1)]
    rfl
  have hcount : List.count ':' (a :: b :: ':' :: c :: d :: ':' :: e :: f :: '.' :: ms) = 2 := by
    simp [List.count_cons, digit_ne_colon ha, digit_ne_colon hb, digit_ne_colon hc,
      digit_ne_colon hd, digit_ne_colon he, digit_ne_colon hf,
      count_eq_zero_of_digits ':' (by decide) hms]
  have hfloat : parseFloatP (e :: f :: '.' :: ms) =
      some ((natOfDigits [e, f] : ℚ) + (natOfDigits ms : ℚ) / 10 ^ ms.length) := by
    have hsplitdot : splitOnC '.' (e :: f :: '.' :: ms) = [[e, f], ms] := by
      rw [splitOnC_cons_ne (digit_ne_dot he), splitOnC_cons_ne (digit_ne_dot hf),
          splitOnC_cons_sep, splitOnC_no_sep hdot_ms]
      rfl
    rw [parseFloatP, hsplitdot]
    simp [he, hf, hms]
  rw [timecode_to_seconds, if_pos hval, hcount]
  norm_num
  rw [hsplit]
  have p1 := parseIntP_eq [a, b] (by simp) (by simp [ha, hb])
  have p2 := parseIntP_eq [c, d] (by simp) (by simp [hc, hd])
  simp [p1, p2, hfloat, natOfDigits_pair]

theorem parse_colon_ms {a b c d e f : Char} {ms : List Char}
    (ha : isDigitC a = true) (hb : isDigitC b = true) (hc : isDigitC c = true)
    (hd : isDigitC d = true) (he : isDigitC e = true) (hf : isDigitC f = true)
    (hms : ms.all isDigitC = true) (hlen1 : 1 ≤ ms.length) (hlen3 : ms.length ≤ 3) :
    timecode_to_seconds (a :: b :: ':' :: c :: d :: ':' :: e :: f :: ':' :: ms) =
      some (((10 * digitVal a + digitVal b : ℕ) : ℚ) * 3600 +
        ((10 * digitVal c + digitVal d : ℕ) : ℚ) * 60 +
        ((10 * digitVal e + digitVal f : ℕ) : ℚ) + (natOfDigits ms : ℚ) / 1000) := by
  have hcolon_ms : (':' : Char) ∉ ms := not_mem_of_all_digits _ (by decide) hms
  have hmsne : ms ≠ [] := by
    intro h1; rw [h1] at hlen1; simp at hlen1
  have hval : validate_timecode (a :: b :: ':' :: c :: d :: ':' :: e :: f :: ':' :: ms) = true := by
    simp [validate_timecode, msOk, ha, hb, hc, hd, he, hf, hms, hlen1, hlen3]
  have hsplit : splitOnC ':' (a :: b :: ':' :: c :: d :: ':' :: e :: f :: ':' :: ms) =
      [[a, b], [c, d], [e, f], ms] := by
    rw [splitOnC_cons_ne (digit_ne_colon ha), splitOnC_cons_ne (digit_ne_colon hb),
        splitOnC_cons_sep, splitOnC_cons_ne (digit_ne_colon hc),
        splitOnC_cons_ne (digit_ne_colon hd), splitOnC_cons_sep,
        splitOnC_cons_ne (digit_ne_colon he), splitOnC_cons_ne (digit_ne_colon hf),
        splitOnC_cons_sep, splitOnC_no_sep hcolon_ms]
    rfl
  have hcount : List.count ':' (a :: b :: ':' :: c :: d :: ':' :: e :: f :: ':' :: ms) = 3 := by
    simp [List.count_cons, digit_ne_colon ha, digit_ne_colon hb, digit_ne_colon hc,
      digit_ne_colon hd, digit_ne_colon he, digit_ne_colon hf,
      count_eq_zero_of_digits ':' (by decide) hms]
  rw [timecode_to_seconds, if_pos hval, hcount]
  norm_num
  rw [hsplit]
  have p1 := parseIntP_eq [a, b] (by simp) (by simp [ha, hb])
  have p2 := parseIntP_eq [c, d] (by simp) (by simp [hc, hd])
  have p3 := parseIntP_eq [e, f] (by simp) (by simp [he, hf])
  have p4 := parseIntP_eq ms hmsne hms
  simp [p1, p2, p3, p4, natOfDigits_pair]

theorem msOk_shape {rest : List Char} (h : msOk rest = true) :
    rest = [] ∨ ∃ g ms, rest = g :: ms ∧ (g = ':' ∨ g = '.') ∧ 1 ≤ ms.length ∧
      ms.length ≤ 3 ∧ ms.all isDigitC = true := by
  cases rest with
  | nil => exact Or.inl rfl
  | cons g ms =>
    right
    simp only [msOk, Bool.and_eq_true, Bool.or_eq_true, decide_eq_true_eq] at h
    exact ⟨g, ms, rfl, h.1.1.1, h.1.1.2, h.1.2, h.2⟩

theorem validate_shape {s : List Char} (h : validate_timecode s = true) :
    ∃ a b c d e f rest, s = a :: b :: ':' :: c :: d :: ':' :: e :: f :: rest ∧
      isDigitC a = true ∧ isDigitC b = true ∧ isDigitC c = true ∧ isDigitC d = true ∧
      isDigitC e = true ∧ isDigitC f = true ∧ msOk rest = true := by
  rcases s with _ | ⟨a, _ | ⟨b, _ | ⟨c2, _ | ⟨c, _ | ⟨d, _ | ⟨c5, _ | ⟨e, _ | ⟨f, rest⟩⟩⟩⟩⟩⟩⟩⟩ <;>
      simp only [validate_timecode, Bool.and_eq_true, decide_eq_true_eq] at h
  case nil => exact absurd h (by decide)
  case cons.nil => exact absurd h (by decide)
  case cons.cons.nil => exact absurd h (by decide)
  case cons.cons.cons.nil => exact absurd h (by decide)
  case cons.cons.cons.cons.nil => exact absurd h (by decide)
  case cons.cons.cons.cons.cons.nil => exact absurd h (by decide)
  case cons.cons.cons.cons.cons.cons.nil => exact absurd h (by decide)
  case cons.cons.cons.cons.cons.cons.cons.nil => exact absurd h (by decide)
  obtain ⟨⟨⟨⟨⟨⟨⟨⟨ha, hb⟩, h2⟩, hc⟩, hd⟩, h5⟩, he⟩, hf⟩, hms⟩ := h
  subst h2; subst h5
  exact ⟨a, b, c, d, e, f, rest, rfl, ha, hb, hc, hd, he, hf, hms⟩

theorem ratFloorN_eq_floor (q : ℚ) : ratFloorN q = ⌊q⌋₊ := by
  rw [ratFloorN, ← Rat.floor_def, Int.floor_toNat]

theorem ratFloorN_div_nat (a k : ℕ) : ratFloorN ((a : ℚ) / k) = a / k := by
  rw [ratFloorN_eq_floor]
  rw [show ((k : ℚ)) = ((k : ℕ) : ℚ) from rfl]
  rw [Nat.floor_div_nat ((a : ℚ)) k, Nat.floor_natCast]

theorem stepA (N : ℕ) : ratFloorN ((N : ℚ) / 1000 / 3600) = N / 3600000 := by
  have h1 : (N : ℚ) / 1000 / 3600 = (N : ℚ) / 3600000 := by ring
  rw [h1]
  have := ratFloorN_div_nat N 3600000
  simpa using this

theorem stepC (N : ℕ) : ratFloorN ((N : ℚ) / 1000 / 60) = N / 60000 := by
  have h1 : (N : ℚ) / 1000 / 60 = (N : ℚ) / 60000 := by ring
  rw [h1]
  have := ratFloorN_div_nat N 60000
  simpa using this

theorem sub_mul_div_eq_mod (N k : ℕ) :
    (N : ℚ) / 1000 - (k / 1000 : ℚ) * ((N / k : ℕ) : ℚ) = ((N % k : ℕ) : ℚ) / 1000 := by
  have h1 : N = k * (N / k) + N % k := (Nat.div_add_mod N k).symm
  have h2 : (N : ℚ) = (k : ℚ) * ((N / k : ℕ) : ℚ) + ((N % k : ℕ) : ℚ) := by
    exact_mod_cast congrArg (Nat.cast : ℕ → ℚ) h1
  rw [h2]
  ring

theorem secs_eq (N : ℕ) :
    (N : ℚ) / 1000 - 60 * ((N / 60000 : ℕ) : ℚ) = ((N % 60000 : ℕ) : ℚ) / 1000 := by
  have := sub_mul_div_eq_mod N 60000
  norm_num at this
  exact this

theorem minutes_eq (N : ℕ) :
    ratFloorN (((N : ℚ) / 1000 - 3600 * ((N / 3600000 : ℕ) : ℚ)) / 60) =
      (N % 3600000) / 60000 := by
  have h1 : (N : ℚ) / 1000 - 3600 * ((N / 3600000 : ℕ) : ℚ) = ((N % 3600000 : ℕ) : ℚ) / 1000 := by
    have := sub_mul_div_eq_mod N 3600000
    norm_num at this
    exact this
  rw [h1]
  exact stepC (N % 3600000)

theorem den_div1000 (K : ℕ) : (((K : ℚ)) / 1000).den = 1 ↔ 1000 ∣ K := by
  constructor
  · intro h
    have h2 := (Rat.den_eq_one_iff _).mp h
    have h3 : (((((K : ℚ)) / 1000).num : ℚ)) * 1000 = (K : ℚ) := by
      rw [h2]; field_simp
    have h4 : ((((K : ℚ)) / 1000).num * 1000 : ℤ) = (K : ℤ) := by exact_mod_cast h3
    have h5 : (1000 : ℤ) ∣ (K : ℤ) := ⟨(((K : ℚ)) / 1000).num, by linarith⟩
    exact_mod_cast h5
  · rintro ⟨m, rfl⟩
    push_cast
    rw [mul_comm, mul_div_assoc]
    norm_num

theorem fmt2_spec : ∀ n < 100, (fmt2 n).length = 2 ∧ (fmt2 n).all isDigitC = true ∧
    natOfDigits (fmt2 n) = n := by decide

set_option maxRecDepth 10000 in
theorem pad3_spec : ∀ n < 1000, (pad3 n).length = 3 ∧ (pad3 n).all isDigitC = true ∧
    natOfDigits (pad3 n) = n := by decide

theorem natRepr_len : ∀ n < 100, 1 ≤ (natRepr n).length ∧ (natRepr n).length ≤ 2 := by decide

theorem fmt2_destruct (n : ℕ) (h : n < 100) :
    ∃ a b, fmt2 n = [a, b] ∧ isDigitC a = true ∧ isDigitC b = true ∧
      10 * digitVal a + digitVal b = n := by
  obtain ⟨hlen, hdig, hval⟩ := fmt2_spec n h
  obtain ⟨a, b, hab⟩ := List.length_eq_two.mp hlen
  rw [hab] at hdig hval
  simp only [List.all_cons, List.all_nil, Bool.and_eq_true] at hdig
  rw [natOfDigits_pair] at hval
  exact ⟨a, b, hab, hdig.1, hdig.2.1, hval⟩

theorem fmt6p3_eq (I F : ℕ) (hI : I < 60) (hF : F < 1000) :
    fmt6p3 (((1000 * I + F : ℕ) : ℚ) / 1000) = fmt2 I ++ '.' :: pad3 F := by
  have hq : (((1000 * I + F : ℕ) : ℚ) / 1000) * 1000 + 1 / 2 =
      ((1000 * I + F : ℕ) : ℚ) + 1 / 2 := by ring
  have hn : ratFloorN ((((1000 * I + F : ℕ) : ℚ) / 1000) * 1000 + 1 / 2) = 1000 * I + F := by
    rw [hq, ratFloorN_eq_floor, Nat.floor_eq_iff (by positivity)]
    constructor
    · norm_num
    · push_cast; linarith
  rw [fmt6p3, hn]
  have hdiv : (1000 * I + F) / 1000 = I := by
    rw [Nat.mul_add_div (by norm_num)]
    simp [Nat.div_eq_of_lt hF]
  have hmod : (1000 * I + F) % 1000 = F := by
    rw [Nat.mul_add_mod]
    exact Nat.mod_eq_of_lt hF
  rw [hdiv, hmod]
  obtain ⟨hl1, hl2⟩ := natRepr_len I (by omega)
  rw [pad3]
  have hlenbody : (natRepr I ++ '.' :: (List.replicate (3 - (natRepr F).length) '0' ++ natRepr F)).length =
      (natRepr I).length + 4 := by
    have := (pad3_spec F hF).1
    rw [pad3] at this
    simp only [List.length_append, List.length_cons]
    simp only [List.length_append] at this
    omega
  rw [hlenbody]
  rw [fmt2]
  have h6 : 6 - ((natRepr I).length + 4) = 2 - (natRepr I).length := by omega
  rw [h6, ← List.append_assoc]

end VideoTrimmer
namespace VideoTrimmer

theorem reparse_thousandths (N : ℕ) (hN : N < 360000000) :
    (seconds_to_timecode ((N : ℚ) / 1000)).bind timecode_to_seconds =
      some ((N : ℚ) / 1000) := by
  have hq0 : ¬ ((N : ℚ) / 1000 < 0) := by
    push_neg
    positivity
  have hHlt : N / 3600000 < 100 := by omega
  have hMlt : N % 3600000 / 60000 < 60 := by omega
  have hIlt : N % 60000 / 1000 < 60 := by omega
  have hFlt : N % 1000 < 1000 := by omega
  have hmod60000 : N % 60000 = 1000 * (N % 60000 / 1000) + N % 1000 := by omega
  have heval : seconds_to_timecode ((N : ℚ) / 1000) =
      if (((N : ℚ) / 1000) - 60 * (ratFloorN (((N : ℚ) / 1000) / 60) : ℚ)).den = 1 then
        some (fmt2 (ratFloorN (((N : ℚ) / 1000) / 3600)) ++ ':' ::
          fmt2 (ratFloorN ((((N : ℚ) / 1000) - 3600 * (ratFloorN (((N : ℚ) / 1000) / 3600) : ℚ)) / 60)) ++ ':' ::
          fmt2 (ratFloorN (((N : ℚ) / 1000) - 60 * (ratFloorN (((N : ℚ) / 1000) / 60) : ℚ))))
      else
        some (fmt2 (ratFloorN (((N : ℚ) / 1000) / 3600)) ++ ':' ::
          fmt2 (ratFloorN ((((N : ℚ) / 1000) - 3600 * (ratFloorN (((N : ℚ) / 1000) / 3600) : ℚ)) / 60)) ++ ':' ::
          fmt6p3 (((N : ℚ) / 1000) - 60 * (ratFloorN (((N : ℚ) / 1000) / 60) : ℚ))) := by
    rw [seconds_to_timecode, if_neg hq0]
  rw [stepA N] at heval
  rw [minutes_eq N] at heval
  rw [stepC N] at heval
  rw [secs_eq N] at heval
  by_cases hFz : N % 1000 = 0
  · -- integral seconds: the HH:MM:SS branch
    have hden : ((((N % 60000 : ℕ)) : ℚ) / 1000).den = 1 := by
      rw [den_div1000]
      omega
    rw [if_pos hden] at heval
    have hrfl : ratFloorN ((((N % 60000 : ℕ)) : ℚ) / 1000) = N % 60000 / 1000 := by
      have := ratFloorN_div_nat (N % 60000) 1000
      simpa using this
    rw [hrfl] at heval
    obtain ⟨a, b, hab, ha, hb, hvab⟩ := fmt2_destruct (N / 3600000) hHlt
    obtain ⟨c, d, hcd, hc, hd, hvcd⟩ := fmt2_destruct (N % 3600000 / 60000) (by omega)
    obtain ⟨e, f, hef, he, hf, hvef⟩ := fmt2_destruct (N % 60000 / 1000) (by omega)
    rw [hab, hcd, hef] at heval
    rw [heval]
    show timecode_to_seconds [a, b, ':', c, d, ':', e, f] = some ((N : ℚ) / 1000)
    rw [parse_plain ha hb hc hd he hf, hvab, hvcd, hvef]
    congr 1
    have : (N : ℚ) = ((3600000 * (N / 3600000) + 60000 * (N % 3600000 / 60000) +
        1000 * (N % 60000 / 1000) + N % 1000 : ℕ) : ℚ) := by
      congr 1
      omega
    rw [this, hFz]
    push_cast
    ring
  · -- fractional seconds: the HH:MM:SS.mmm branch
    have hden : ¬ (((((N % 60000 : ℕ)) : ℚ) / 1000).den = 1) := by
      rw [den_div1000]
      omega
    rw [if_neg hden] at heval
    have h6p3 : fmt6p3 ((((N % 60000 : ℕ)) : ℚ) / 1000) =
        fmt2 (N % 60000 / 1000) ++ '.' :: pad3 (N % 1000) := by
      have := fmt6p3_eq (N % 60000 / 1000) (N % 1000) hIlt hFlt
      rw [← hmod60000] at this
      exact this
    rw [h6p3] at heval
    obtain ⟨a, b, hab, ha, hb, hvab⟩ := fmt2_destruct (N / 3600000) hHlt
    obtain ⟨c, d, hcd, hc, hd, hvcd⟩ := fmt2_destruct (N % 3600000 / 60000) (by omega)
    obtain ⟨e, f, hef, he, hf, hvef⟩ := fmt2_destruct (N % 60000 / 1000) (by omega)
    rw [hab, hcd, hef] at heval
    rw [heval]
    obtain ⟨hp3len, hp3dig, hp3val⟩ := pad3_spec (N % 1000) hFlt
    show timecode_to_seconds (a :: b :: ':' :: c :: d :: ':' :: e :: f :: '.' :: pad3 (N % 1000)) =
      some ((N : ℚ) / 1000)
    rw [parse_dot ha hb hc hd he hf hp3dig (by rw [hp3len]; norm_num) (by rw [hp3len]),
      hvab, hvcd, hvef, hp3val, hp3len]
    congr 1
    have hcast : (N : ℚ) = ((3600000 * (N / 3600000) + 60000 * (N % 3600000 / 60000) +
        1000 * (N % 60000 / 1000) + N % 1000 : ℕ) : ℚ) := by
      congr 1
      omega
    rw [hcast]
    push_cast
    ring

end VideoTrimmer
namespace VideoTrimmer

theorem timecode_to_seconds_inv {s : List Char} {t : ℚ}
    (h : timecode_to_seconds s = some t) : ∃ N : ℕ, t = (N : ℚ) / 1000 := by
  have hval : validate_timecode s = true := by
    by_contra hv
    rw [timecode_to_seconds, if_neg hv] at h
    exact Option.noConfusion h
  obtain ⟨a, b, c, d, e, f, rest, hs, ha, hb, hc, hd, he, hf, hms⟩ := validate_shape hval
  subst hs
  rcases msOk_shape hms with hrest | ⟨g, ms, hrest, hg, hlen1, hlen3, hmsd⟩
  · subst hrest
    rw [parse_plain ha hb hc hd he hf] at h
    refine ⟨1000 * ((10 * digitVal a + digitVal b) * 3600 + (10 * digitVal c + digitVal d) * 60 +
      (10 * digitVal e + digitVal f)), ?_⟩
    have := Option.some.inj h
    rw [← this]
    push_cast
    ring
  · subst hrest
    rcases hg with hg | hg
    · subst hg
      rw [parse_colon_ms ha hb hc hd he hf hmsd hlen1 hlen3] at h
      refine ⟨1000 * ((10 * digitVal a + digitVal b) * 3600 + (10 * digitVal c + digitVal d) * 60 +
        (10 * digitVal e + digitVal f)) + natOfDigits ms, ?_⟩
      have := Option.some.inj h
      rw [← this]
      push_cast
      ring
    · subst hg
      rw [parse_dot ha hb hc hd he hf hmsd hlen1 hlen3] at h
      refine ⟨1000 * ((10 * digitVal a + digitVal b) * 3600 + (10 * digitVal c + digitVal d) * 60 +
        (10 * digitVal e + digitVal f)) + natOfDigits ms * 10 ^ (3 - ms.length), ?_⟩
      have := Option.some.inj h
      rw [← this]
      have hpow : ((10 : ℚ)) ^ ms.length * 10 ^ (3 - ms.length) = 1000 := by
        rw [← pow_add]
        have : ms.length + (3 - ms.length) = 3 := by omega
        rw [this]
        norm_num
      push_cast
      field_simp
      rw [show ((1000 : ℚ)) = 10 ^ ms.length * 10 ^ (3 - ms.length) from hpow.symm]
      ring

end VideoTrimmer
namespace VideoTrimmer

theorem ratFloorN_eval (q : ℚ) (n : ℕ) (h1 : (n : ℚ) ≤ q) (h2 : q < n + 1) :
    ratFloorN q = n := by
  have h0 : 0 ≤ q := le_trans (by positivity) h1
  rw [ratFloorN_eq_floor]
  exact (Nat.floor_eq_iff h0).mpr ⟨h1, h2⟩

theorem s2t_362439 : seconds_to_timecode 362439 = some ("100:40:39".data) := by
  have heval : seconds_to_timecode (362439 : ℚ) =
      if ((362439 : ℚ) - 60 * (ratFloorN ((362439 : ℚ) / 60) : ℚ)).den = 1 then
        some (fmt2 (ratFloorN ((362439 : ℚ) / 3600)) ++ ':' ::
          fmt2 (ratFloorN (((362439 : ℚ) - 3600 * (ratFloorN ((362439 : ℚ) / 3600) : ℚ)) / 60)) ++ ':' ::
          fmt2 (ratFloorN ((362439 : ℚ) - 60 * (ratFloorN ((362439 : ℚ) / 60) : ℚ))))
      else
        some (fmt2 (ratFloorN ((362439 : ℚ) / 3600)) ++ ':' ::
          fmt2 (ratFloorN (((362439 : ℚ) - 3600 * (ratFloorN ((362439 : ℚ) / 3600) : ℚ)) / 60)) ++ ':' ::
          fmt6p3 ((362439 : ℚ) - 60 * (ratFloorN ((362439 : ℚ) / 60) : ℚ))) := by
    rw [seconds_to_timecode, if_neg (by norm_num)]
  rw [ratFloorN_eval ((362439 : ℚ) / 3600) 100 (by norm_num) (by norm_num)] at heval
  rw [ratFloorN_eval ((362439 : ℚ) / 60) 6040 (by norm_num) (by norm_num)] at heval
  rw [show ((362439 : ℚ) - 60 * ((6040 : ℕ) : ℚ)) = ((39 : ℕ) : ℚ) from by norm_num] at heval
  rw [show (((362439 : ℚ) - 3600 * ((100 : ℕ) : ℚ)) / 60) = (2439 : ℚ) / 60 from by norm_num] at heval
  rw [ratFloorN_eval ((2439 : ℚ) / 60) 40 (by norm_num) (by norm_num)] at heval
  rw [show (ratFloorN ((39 : ℕ) : ℚ)) = 39 from by
    rw [ratFloorN_eq_floor, Nat.floor_natCast]] at heval
  rw [if_pos (by simp)] at heval
  rw [heval]
  congr 1

end VideoTrimmer
namespace VideoTrimmer

/-- C3 (amended): for timecodes whose value stays below 100 hours, the
round trip through `seconds_to_timecode` re-parses to the same value. -/
theorem C3_roundtrip_below_100h (s : List Char) (t : ℚ)
    (h : timecode_to_seconds s = some t) (hlt : t < 360000) :
    roundTrip s = some t := by
  obtain ⟨N, hNt⟩ := timecode_to_seconds_inv h
  subst hNt
  have hN : N < 360000000 := by
    by_contra hN1
    push_neg at hN1
    have h2 : (360000000 : ℚ) ≤ (N : ℚ) := by exact_mod_cast hN1
    have h3 : (360000 : ℚ) ≤ (N : ℚ) / 1000 := by linarith
    linarith
  rw [roundTrip, h]
  simpa using reparse_thousandths N hN

theorem C3_roundtrip_witness :
    timecode_to_seconds ("01:02:03.5".data) = some (7447 / 2) ∧
      (7447 / 2 : ℚ) < 360000 ∧ roundTrip ("01:02:03.5".data) = some (7447 / 2) := by
  have h : timecode_to_seconds ("01:02:03.5".data) = some (7447 / 2) := by
    show timecode_to_seconds ('0' :: '1' :: ':' :: '0' :: '2' :: ':' :: '0' :: '3' :: '.' :: ['5']) =
      some (7447 / 2)
    rw [parse_dot (by decide) (by decide) (by decide) (by decide) (by decide) (by decide)
      (by decide) (by decide) (by decide)]
    norm_num [show digitVal '0' = 0 from by decide, show digitVal '1' = 1 from by decide,
      show digitVal '2' = 2 from by decide, show digitVal '3' = 3 from by decide,
      show natOfDigits ['5'] = 5 from by decide]
  exact ⟨h, by norm_num, C3_roundtrip_below_100h _ _ h (by norm_num)⟩

theorem C3_counterexample :
    validate_timecode ("99:99:99".data) = true ∧
      timecode_to_seconds ("99:99:99".data) = some 362439 ∧
      roundTrip ("99:99:99".data) = none := by
  have h : timecode_to_seconds ("99:99:99".data) = some 362439 := by
    show timecode_to_seconds ['9', '9', ':', '9', '9', ':', '9', '9'] = some 362439
    rw [parse_plain (by decide) (by decide) (by decide) (by decide) (by decide) (by decide)]
    norm_num [show digitVal '9' = 9 from by decide]
  refine ⟨by decide, h, ?_⟩
  rw [roundTrip, h]
  have hnone : timecode_to_seconds ("100:40:39".data) = none := by
    rw [timecode_to_seconds, if_neg (by decide)]
  simp [s2t_362439, hnone]

end VideoTrimmer
namespace VideoTrimmer

/-- C6: `parse_timecode_range` fails when splitting on `-` does not give
exactly two parts, fails when the end's seconds value is not after the
start's (in particular on "00:00:10-00:00:05"), and otherwise returns the
pair of parsed seconds values. -/
theorem C6_parse_range :
    (∀ s : List Char, (splitOnC '-' s).length ≠ 2 →
        parse_timecode_range s = .error .badSplit) ∧
    parse_timecode_range ("00:00:10-00:00:05".data) = .error .endNotAfterStart ∧
    (∀ (s p0 p1 : List Char) (t0 t1 : ℚ),
        splitOnC '-' s = [p0, p1] →
        timecode_to_seconds (stripC p0) = some t0 →
        timecode_to_seconds (stripC p1) = some t1 →
        (t1 ≤ t0 → parse_timecode_range s = .error .endNotAfterStart) ∧
        (¬ t1 ≤ t0 → parse_timecode_range s = .ok (t0, t1))) := by
  have hgen : ∀ (s p0 p1 : List Char) (t0 t1 : ℚ),
      splitOnC '-' s = [p0, p1] →
      timecode_to_seconds (stripC p0) = some t0 →
      timecode_to_seconds (stripC p1) = some t1 →
      (t1 ≤ t0 → parse_timecode_range s = .error .endNotAfterStart) ∧
      (¬ t1 ≤ t0 → parse_timecode_range s = .ok (t0, t1)) := by
    intro s p0 p1 t0 t1 hsplit h0 h1
    rw [parse_timecode_range, hsplit]
    simp only [h0, h1]
    constructor
    · intro hle
      rw [if_pos hle]
    · intro hlt
      rw [if_neg hlt]
  refine ⟨?_, ?_, hgen⟩
  · intro s hs
    rw [parse_timecode_range]
    match hm : splitOnC '-' s with
    | [p0, p1] => rw [hm] at hs; simp at hs
    | [] => rfl
    | [p0] => rfl
    | p0 :: p1 :: p2 :: rest => rfl
  · have h10 : timecode_to_seconds ("00:00:10".data) = some 10 := by
      show timecode_to_seconds ['0', '0', ':', '0', '0', ':', '1', '0'] = some 10
      rw [parse_plain (by decide) (by decide) (by decide) (by decide) (by decide) (by decide)]
      norm_num [show digitVal '0' = 0 from by decide, show digitVal '1' = 1 from by decide]
    have h05 : timecode_to_seconds ("00:00:05".data) = some 5 := by
      show timecode_to_seconds ['0', '0', ':', '0', '0', ':', '0', '5'] = some 5
      rw [parse_plain (by decide) (by decide) (by decide) (by decide) (by decide) (by decide)]
      norm_num [show digitVal '0' = 0 from by decide, show digitVal '5' = 5 from by decide]
    have hsplit : splitOnC '-' ("00:00:10-00:00:05".data) =
        [("00:00:10".data), ("00:00:05".data)] := by decide
    have hstrip0 : stripC ("00:00:10".data) = ("00:00:10".data) := by decide
    have hstrip1 : stripC ("00:00:05".data) = ("00:00:05".data) := by decide
    exact (hgen _ _ _ 10 5 hsplit (by rw [hstrip0]; exact h10) (by rw [hstrip1]; exact h05)).1
      (by norm_num)

theorem C6_parse_range_witness :
    parse_timecode_range ("00:00:05 - 00:00:10".data) = .ok (5, 10) ∧
      parse_timecode_range ("a-b-c".data) = .error .badSplit := by
  have h05 : timecode_to_seconds ("00:00:05".data) = some 5 := by
    show timecode_to_seconds ['0', '0', ':', '0', '0', ':', '0', '5'] = some 5
    rw [parse_plain (by decide) (by decide) (by decide) (by decide) (by decide) (by decide)]
    norm_num [show digitVal '0' = 0 from by decide, show digitVal '5' = 5 from by decide]
  have h10 : timecode_to_seconds ("00:00:10".data) = some 10 := by
    show timecode_to_seconds ['0', '0', ':', '0', '0', ':', '1', '0'] = some 10
    rw [parse_plain (by decide) (by decide) (by decide) (by decide) (by decide) (by decide)]
    norm_num [show digitVal '0' = 0 from by decide, show digitVal '1' = 1 from by decide]
  constructor
  · refine (C6_parse_range.2.2 ("00:00:05 - 00:00:10".data) ("00:00:05 ".data)
      (" 00:00:10".data) 5 10 (by decide) ?_ ?_).2 (by norm_num)
    · rw [show stripC ("00:00:05 ".data) = ("00:00:05".data) from by decide]
      exact h05
    · rw [show stripC (" 00:00:10".data) = ("00:00:10".data) from by decide]
      exact h10
  · exact C6_parse_range.1 _ (by decide)

end VideoTrimmer
namespace VideoTrimmer

/-- C7: a timecode whose seconds value falls outside `[0, duration]` makes
`get_frame_at_time` return `None` without touching the decode step or the
cache (and without raising). -/
theorem C7_out_of_range_none (vp : VPState) (tc : List Char) (d : Option (List ℕ)) (t : ℚ)
    (h : timecode_to_seconds tc = some t) (hout : t < 0 ∨ vp.duration < t) :
    get_frame_at_time vp tc d = (none, vp, false) := by
  rw [get_frame_at_time]
  by_cases hl : vp.loaded = false
  · rw [if_pos hl]
  · rw [if_neg hl, h]
    simp only [if_pos hout]

theorem C7_out_of_range_none_witness :
    timecode_to_seconds ("00:00:10".data) = some 10 ∧
      ((10 : ℚ) < 0 ∨ (1 : ℚ) < 10) ∧
      get_frame_at_time ⟨1, 25, 640, 480, true, []⟩ ("00:00:10".data) (some [7]) =
        (none, ⟨1, 25, 640, 480, true, []⟩, false) := by
  have h10 : timecode_to_seconds ("00:00:10".data) = some 10 := by
    show timecode_to_seconds ['0', '0', ':', '0', '0', ':', '1', '0'] = some 10
    rw [parse_plain (by decide) (by decide) (by decide) (by decide) (by decide) (by decide)]
    norm_num [show digitVal '0' = 0 from by decide, show digitVal '1' = 1 from by decide]
  exact ⟨h10, Or.inr (by norm_num),
    C7_out_of_range_none ⟨1, 25, 640, 480, true, []⟩ ("00:00:10".data) (some [7]) 10 h10
      (Or.inr (by norm_num))⟩

end VideoTrimmer
namespace VideoTrimmer

theorem dictSet_length (k : ℕ) (v : FrameData) (c : Cache) :
    (dictSet k v c).length ≤ c.length + 1 := by
  rw [dictSet]
  by_cases h : (cacheKeys c).contains k
  · rw [if_pos h]
    simp
  · rw [if_neg h]
    simp

theorem minKey_mem {c : Cache} (h : c ≠ []) : minKey c ∈ cacheKeys c := by
  have hk : cacheKeys c ≠ [] := by
    rw [cacheKeys]
    simp [h]
  rw [minKey]
  match hm : (cacheKeys c).min? with
  | some m =>
    have := List.min?_mem (fun a b : ℕ => min_choice a b) hm
    simpa using this
  | none =>
    rw [List.min?_eq_none_iff] at hm
    exact absurd hm hk

theorem dictDel_minKey_length {c : Cache} (h : c ≠ []) :
    (dictDel (minKey c) c).length < c.length := by
  rw [dictDel]
  rw [List.length_filter_lt_length_iff_exists]
  have := minKey_mem h
  rw [cacheKeys] at this
  obtain ⟨kv, hkv, hfst⟩ := List.mem_map.mp this
  exact ⟨kv, hkv, by simp [hfst]⟩

theorem add_to_cache_length (k : ℕ) (v : FrameData) (c : Cache) (h : c.length ≤ 30) :
    (add_to_cache k v c).length ≤ 30 := by
  rw [add_to_cache]
  by_cases hfull : 30 ≤ c.length
  · rw [if_pos hfull]
    have hne : c ≠ [] := by
      intro h0
      rw [h0] at hfull
      simp at hfull
    have h1 := dictDel_minKey_length hne
    have h2 := dictSet_length k v (dictDel (minKey c) c)
    omega
  · rw [if_neg hfull]
    have h2 := dictSet_length k v c
    omega

end VideoTrimmer
namespace VideoTrimmer

theorem get_frame_cache_bound (vp : VPState) (tc : List Char) (d : Option (List ℕ))
    (h : vp.cache.length ≤ 30) : (get_frame_at_time vp tc d).2.1.cache.length ≤ 30 := by
  rw [get_frame_at_time]
  by_cases hl : vp.loaded = false
  · rw [if_pos hl]
    exact h
  · rw [if_neg hl]
    match timecode_to_seconds tc with
    | none => exact h
    | some seconds =>
      by_cases hout : seconds < 0 ∨ vp.duration < seconds
      · simp only [if_pos hout]
        exact h
      · simp only [if_neg hout]
        match cacheFind (ratFloorN (seconds * vp.fps)) vp.cache with
        | some fd => exact h
        | none =>
          match d with
          | none => exact h
          | some bytes => exact add_to_cache_length _ _ _ h

/-- C4: after any sequence of `get_frame_at_time` calls the cache holds at
most 30 entries, and a call whose frame index is already cached returns the
stored tuple unchanged without running the decode step. -/
theorem C4_cache_bound_and_hit :
    (∀ (vp : VPState) (calls : List (List Char × Option (List ℕ))),
        vp.cache.length ≤ 30 → (runFrameCalls vp calls).cache.length ≤ 30) ∧
    (∀ (vp : VPState) (tc : List Char) (d : Option (List ℕ)) (t : ℚ) (fd : FrameData),
        vp.loaded = true →
        timecode_to_seconds tc = some t →
        ¬(t < 0 ∨ vp.duration < t) →
        cacheFind (ratFloorN (t * vp.fps)) vp.cache = some fd →
        get_frame_at_time vp tc d = (some fd, vp, false)) := by
  constructor
  · intro vp calls
    induction calls generalizing vp with
    | nil => intro h; exact h
    | cons cd rest ih =>
      intro h
      exact ih _ (get_frame_cache_bound vp cd.1 cd.2 h)
  · intro vp tc d t fd hl ht hout hfind
    rw [get_frame_at_time, if_neg (by rw [hl]; simp), ht]
    simp only [if_neg hout, hfind]

end VideoTrimmer
namespace VideoTrimmer

theorem C4_cache_bound_and_hit_witness :
    (⟨1, 25, 640, 480, true, [(0, (640, 480, [1, 2]))]⟩ : VPState).cache.length ≤ 30 ∧
      (runFrameCalls ⟨1, 25, 640, 480, true, [(0, (640, 480, [1, 2]))]⟩
        [(("00:00:10".data), some [7])]).cache.length ≤ 30 ∧
      get_frame_at_time ⟨1, 25, 640, 480, true, [(0, (640, 480, [1, 2]))]⟩
        ("00:00:00".data) (some [7]) =
        (some (640, 480, [1, 2]), ⟨1, 25, 640, 480, true, [(0, (640, 480, [1, 2]))]⟩, false) := by
  have h0 : timecode_to_seconds ("00:00:00".data) = some 0 := by
    show timecode_to_seconds ['0', '0', ':', '0', '0', ':', '0', '0'] = some 0
    rw [parse_plain (by decide) (by decide) (by decide) (by decide) (by decide) (by decide)]
    norm_num [show digitVal '0' = 0 from by decide]
  have hfn : ratFloorN ((0 : ℚ) * (25 : ℚ)) = 0 := by
    rw [show ((0 : ℚ) * (25 : ℚ)) = ((0 : ℕ) : ℚ) from by norm_num, ratFloorN_eq_floor,
      Nat.floor_natCast]
  refine ⟨by decide, ?_, ?_⟩
  · exact C4_cache_bound_and_hit.1 _ _ (by decide)
  · refine C4_cache_bound_and_hit.2 _ _ _ 0 _ rfl h0 (by norm_num) ?_
    show cacheFind (ratFloorN ((0 : ℚ) * (25 : ℚ))) [(0, (640, 480, [1, 2]))] =
      some (640, 480, [1, 2])
    rw [hfn]
    rfl

end VideoTrimmer
namespace VideoTrimmer

theorem cacheKeys_dictDel (m : ℕ) (c : Cache) :
    cacheKeys (dictDel m c) = (cacheKeys c).filter (fun x => decide (x ≠ m)) := by
  rw [dictDel, cacheKeys, cacheKeys]
  induction c with
  | nil => rfl
  | cons kv rest ih =>
    rw [List.filter_cons, List.map_cons, List.filter_cons]
    by_cases h : kv.1 = m
    · have h1 : (decide (kv.1 ≠ m)) = false := by simp [h]
      rw [h1]
      simp only [Bool.false_eq_true, if_false]
      rw [ih]
    · have h1 : (decide (kv.1 ≠ m)) = true := by simp [h]
      rw [h1]
      simp only [if_true]
      rw [List.map_cons, ih]

/-- C8: inserting into a full cache evicts exactly the entry with the
numerically smallest key; the inserted key is appended. -/
theorem C8_evicts_smallest_key (k : ℕ) (v : FrameData) (c : Cache)
    (hfull : 30 ≤ c.length) (hnodup : (cacheKeys c).Nodup) (hnew : k ∉ cacheKeys c) :
    cacheKeys (add_to_cache k v c) = ((cacheKeys c).erase (minKey c)) ++ [k] := by
  rw [add_to_cache, if_pos hfull]
  have hdelkeys : cacheKeys (dictDel (minKey c) c) =
      (cacheKeys c).filter (fun x => decide (x ≠ minKey c)) := cacheKeys_dictDel _ _
  have herase : (cacheKeys c).filter (fun x => decide (x ≠ minKey c)) =
      (cacheKeys c).erase (minKey c) := by
    rw [List.Nodup.erase_eq_filter hnodup]
    apply List.filter_congr
    intro x hx
    by_cases hxm : x = minKey c <;> simp [bne, hxm]
  have hkeynotin : k ∉ cacheKeys (dictDel (minKey c) c) := by
    rw [hdelkeys]
    intro hmem
    exact hnew (List.mem_of_mem_filter hmem)
  rw [dictSet]
  rw [if_neg (by
    intro hcont
    exact hkeynotin (by simpa using hcont))]
  rw [cacheKeys, List.map_append]
  rw [cacheKeys] at hdelkeys
  rw [hdelkeys, herase]
  rfl

theorem C8_evicts_smallest_key_witness :
    30 ≤ ((List.range 30).map fun i => ((i + 1 : ℕ), ((0, 0, []) : FrameData))).length ∧
      cacheKeys (add_to_cache 50 (0, 0, [])
          ((List.range 30).map fun i => ((i + 1 : ℕ), ((0, 0, []) : FrameData)))) =
        ((cacheKeys ((List.range 30).map fun i => ((i + 1 : ℕ), ((0, 0, []) : FrameData)))).erase
          (minKey ((List.range 30).map fun i => ((i + 1 : ℕ), ((0, 0, []) : FrameData))))) ++ [50] := by
  refine ⟨by decide, ?_⟩
  exact C8_evicts_smallest_key 50 (0, 0, [])
    ((List.range 30).map fun i => ((i + 1 : ℕ), ((0, 0, []) : FrameData)))
    (by decide) (by decide) (by decide)

end VideoTrimmer
namespace VideoTrimmer

/-- C9: `add_recent_file p` puts `p` first, leaves exactly one occurrence of
`p` (given the maintained invariant that it occurred at most once before),
keeps the list within `max_recent_files` (positive, default 5), and
performs exactly one immediate full rewrite of the configuration file. -/
theorem C9_add_recent_file (st : CMState) (p : List Char)
    (hdup : st.config.recent_files.count p ≤ 1)
    (hmax : 0 < st.config.max_recent_files) :
    (add_recent_file st p).config.recent_files.head? = some p ∧
      (add_recent_file st p).config.recent_files.count p = 1 ∧
      (add_recent_file st p).config.recent_files.length ≤ st.config.max_recent_files ∧
      (add_recent_file st p).saves = st.saves + 1 := by
  rw [add_recent_file]
  set r0 := st.config.recent_files with hr0
  set r1 := if p ∈ r0 then r0.erase p else r0 with hr1
  have hcount1 : r1.count p = 0 := by
    rw [hr1]
    by_cases hmem : p ∈ r0
    · rw [if_pos hmem, List.count_erase_self]
      have := List.count_pos_iff.mpr hmem
      omega
    · rw [if_neg hmem]
      exact List.count_eq_zero.mpr hmem
  set r2 := p :: r1 with hr2
  have hcount2 : r2.count p = 1 := by
    rw [hr2, List.count_cons_self, hcount1]
  set m := st.config.max_recent_files with hm
  set r3 := if m < r2.length then r2.take m else r2 with hr3
  have hhead : r3.head? = some p := by
    rw [hr3]
    by_cases hlen : m < r2.length
    · rw [if_pos hlen, hr2]
      obtain ⟨k, hk⟩ := Nat.exists_eq_succ_of_ne_zero (Nat.pos_iff_ne_zero.mp hmax)
      rw [hk, List.take_succ_cons]
      rfl
    · rw [if_neg hlen, hr2]
      rfl
  have hcount3 : r3.count p = 1 := by
    rw [hr3]
    by_cases hlen : m < r2.length
    · rw [if_pos hlen]
      have hle : (r2.take m).count p ≤ r2.count p := (List.take_sublist m r2).count_le p
      have hge : 1 ≤ (r2.take m).count p := by
        have hh : (r2.take m).head? = some p := by
          rw [hr2]
          obtain ⟨k, hk⟩ := Nat.exists_eq_succ_of_ne_zero (Nat.pos_iff_ne_zero.mp hmax)
          rw [hk, List.take_succ_cons]
          rfl
        have : p ∈ r2.take m := by
          cases hmem : r2.take m with
          | nil => rw [hmem] at hh; exact absurd hh (by simp)
          | cons x xs =>
            rw [hmem] at hh
            simp at hh
            rw [hh]
            exact List.mem_cons_self p xs
        exact List.count_pos_iff.mpr this
      omega
    · rw [if_neg hlen]
      exact hcount2
  have hlen3 : r3.length ≤ m := by
    rw [hr3]
    by_cases hlen : m < r2.length
    · rw [if_pos hlen]
      simp [List.length_take]
    · rw [if_neg hlen]
      omega
  exact ⟨hhead, hcount3, hlen3, rfl⟩

theorem C9_add_recent_file_witness :
    ((⟨DEFAULT_CONFIG, 0⟩ : CMState).config.recent_files.count ("a".data) ≤ 1 ∧
      0 < (⟨DEFAULT_CONFIG, 0⟩ : CMState).config.max_recent_files) ∧
      ((add_recent_file ⟨DEFAULT_CONFIG, 0⟩ ("a".data)).config.recent_files.head? =
          some ("a".data) ∧
        (add_recent_file ⟨DEFAULT_CONFIG, 0⟩ ("a".data)).config.recent_files.count ("a".data) = 1 ∧
        (add_recent_file ⟨DEFAULT_CONFIG, 0⟩ ("a".data)).config.recent_files.length ≤
          (⟨DEFAULT_CONFIG, 0⟩ : CMState).config.max_recent_files ∧
        (add_recent_file ⟨DEFAULT_CONFIG, 0⟩ ("a".data)).saves = 0 + 1) :=
  ⟨⟨by decide, by decide⟩,
    C9_add_recent_file ⟨DEFAULT_CONFIG, 0⟩ ("a".data) (by decide) (by decide)⟩

end VideoTrimmer
namespace VideoTrimmer

/-- C10 evidence: `VideoSegment.time_to_seconds("1.5")` raises an uncaught
`IndexError` (the `except` clause catches only `ValueError` and
`AttributeError`), while the utility-level converter rejects the same input
with a `ValueError`; on strings whose failures are caught, it returns `0.0`,
and `duration` of a segment with two such strings is `0.0`. -/
theorem C10_time_to_seconds_raises :
    segTimeToSeconds ("1.5".data) = .error .indexError ∧
      segTimeToSecondsRaw ("1.5".data) = .error .indexError ∧
      timecode_to_seconds ("1.5".data) = none ∧
      segTimeToSeconds ("abc".data) = .ok 0 ∧
      VideoSegment.duration ⟨"abc".data, "xyz".data, 0, 0, none⟩ = .ok 0 := by
  refine ⟨by decide, by decide, by decide, by decide, ?_⟩
  have he : segTimeToSeconds ("xyz".data) = .ok 0 := by decide
  have hs : segTimeToSeconds ("abc".data) = .ok 0 := by decide
  rw [VideoSegment.duration]
  show (do
    let e ← segTimeToSeconds ("xyz".data)
    let s ← segTimeToSeconds ("abc".data)
    pure (e - s) : Except PyExc ℚ) = .ok 0
  rw [he, hs]
  show Except.ok ((0 : ℚ) - 0) = Except.ok 0
  norm_num

end VideoTrimmer
namespace VideoTrimmer

theorem pyFloatE_pair {a b : Char} (ha : isDigitC a = true) (hb : isDigitC b = true) :
    pyFloatE [a, b] = .ok (((10 * digitVal a + digitVal b : ℕ) : ℚ)) := by
  have hsplit : splitOnC '.' [a, b] = [[a, b]] :=
    splitOnC_no_sep (by
      intro hmem
      simp only [List.mem_cons, List.not_mem_nil] at hmem
      rcases hmem with h1 | h1 | h1
      · exact digit_ne_dot ha h1.symm
      · exact digit_ne_dot hb h1.symm
      · exact h1)
  rw [pyFloatE, parseFloatP, hsplit]
  simp [ha, hb, natOfDigits_pair]

theorem seg_parse_plain {a b c d e f : Char}
    (ha : isDigitC a = true) (hb : isDigitC b = true) (hc : isDigitC c = true)
    (hd : isDigitC d = true) (he : isDigitC e = true) (hf : isDigitC f = true) :
    segTimeToSeconds [a, b, ':', c, d, ':', e, f] =
      .ok (((10 * digitVal a + digitVal b : ℕ) : ℚ) * 3600 +
        ((10 * digitVal c + digitVal d : ℕ) : ℚ) * 60 +
        ((10 * digitVal e + digitVal f : ℕ) : ℚ)) := by
  have hsplit : splitOnC ':' [a, b, ':', c, d, ':', e, f] = [[a, b], [c, d], [e, f]] := by
    rw [splitOnC_cons_ne (digit_ne_colon ha), splitOnC_cons_ne (digit_ne_colon hb),
        splitOnC_cons_sep, splitOnC_cons_ne (digit_ne_colon hc),
        splitOnC_cons_ne (digit_ne_colon hd), splitOnC_cons_sep,
        splitOnC_cons_ne (digit_ne_colon he), splitOnC_cons_ne (digit_ne_colon hf)]
    rfl
  have hcount : List.count ':' [a, b, ':', c, d, ':', e, f] = 2 := by
    simp [List.count_cons, digit_ne_colon ha, digit_ne_colon hb, digit_ne_colon hc,
      digit_ne_colon hd, digit_ne_colon he, digit_ne_colon hf]
  have hcontains : ([a, b, ':', c, d, ':', e, f] : List Char).contains '.' = false := by
    simp only [List.contains, List.elem_eq_mem, decide_eq_false_iff_not, List.mem_cons,
      List.not_mem_nil, or_false]
    intro hmem
    rcases hmem with h1 | h1 | h1 | h1 | h1 | h1 | h1 | h1
    · exact digit_ne_dot ha h1.symm
    · exact digit_ne_dot hb h1.symm
    · exact absurd h1 (by decide)
    · exact digit_ne_dot hc h1.symm
    · exact digit_ne_dot hd h1.symm
    · exact absurd h1 (by decide)
    · exact digit_ne_dot he h1.symm
    · exact digit_ne_dot hf h1.symm
  rw [segTimeToSeconds, segTimeToSecondsRaw, hcount]
  norm_num
  rw [if_neg (by
    intro hmem
    rcases hmem with h1 | h1 | h1 | h1 | h1 | h1 | h1 | h1
    · exact digit_ne_dot ha h1.symm
    · exact digit_ne_dot hb h1.symm
    · exact absurd h1 (by decide)
    · exact digit_ne_dot hc h1.symm
    · exact digit_ne_dot hd h1.symm
    · exact absurd h1 (by decide)
    · exact digit_ne_dot he h1.symm
    · exact digit_ne_dot hf h1.symm), hsplit]
  simp only [pyFloatE_pair ha hb, pyFloatE_pair hc hd, pyFloatE_pair he hf]
  show Except.ok (((10 * digitVal a + digitVal b : ℕ) : ℚ) * 3600 +
    ((10 * digitVal c + digitVal d : ℕ) : ℚ) * 60 + ((10 * digitVal e + digitVal f : ℕ) : ℚ)) = _
  congr 1
  push_cast
  ring

end VideoTrimmer
namespace VideoTrimmer

/-- C1 (amended): the tier-1 command builder never disables fades; whenever
both fade durations are positive — including when their sum exceeds 90%
of the segment duration — the built command carries both the fade-in and
the fade-out video filter. -/
theorem C1_fades_never_disabled (video_path output_path : List Char) (seg : VideoSegment)
    (st en : ℚ)
    (hst : segTimeToSeconds seg.start_time = .ok st)
    (hen : segTimeToSeconds seg.end_time = .ok en)
    (hfi : 0 < seg.fade_in_duration) (hfo : 0 < seg.fade_out_duration)
    (h90 : 9 / 10 * (en - st) < seg.fade_in_duration + seg.fade_out_duration) :
    (trimSegmentComplexCmd video_path seg output_path).map videoFadesOf =
      .ok [⟨.fadeIn, seg.fade_in_duration, 0⟩,
        ⟨.fadeOut, seg.fade_out_duration, max 0 ((en - st) - seg.fade_out_duration)⟩] := by
  rw [trimSegmentComplexCmd]
  rw [hst, hen]
  show Except.map videoFadesOf (Except.ok _) = _
  rw [if_pos (Or.inl hfi), if_pos hfi, if_pos hfo]
  simp [Except.map, videoFadesOf]

end VideoTrimmer
namespace VideoTrimmer

theorem C1_fades_never_disabled_witness :
    segTimeToSeconds ("00:00:00".data) = .ok 0 ∧
      segTimeToSeconds ("00:00:05".data) = .ok 5 ∧
      (0 : ℚ) < 3 ∧ (9 / 10 : ℚ) * (5 - 0) < 3 + 3 ∧
      (trimSegmentComplexCmd ("video.mp4".data)
          ⟨"00:00:00".data, "00:00:05".data, 3, 3, none⟩ ("out.mp4".data)).map videoFadesOf =
        .ok [⟨.fadeIn, 3, 0⟩, ⟨.fadeOut, 3, max 0 ((5 - 0) - 3)⟩] := by
  have h0 : segTimeToSeconds ("00:00:00".data) = .ok 0 := by
    show segTimeToSeconds ['0', '0', ':', '0', '0', ':', '0', '0'] = .ok 0
    rw [seg_parse_plain (by decide) (by decide) (by decide) (by decide) (by decide) (by decide)]
    norm_num [show digitVal '0' = 0 from by decide]
  have h5 : segTimeToSeconds ("00:00:05".data) = .ok 5 := by
    show segTimeToSeconds ['0', '0', ':', '0', '0', ':', '0', '5'] = .ok 5
    rw [seg_parse_plain (by decide) (by decide) (by decide) (by decide) (by decide) (by decide)]
    norm_num [show digitVal '0' = 0 from by decide, show digitVal '5' = 5 from by decide]
  exact ⟨h0, h5, by norm_num, by norm_num,
    C1_fades_never_disabled ("video.mp4".data) ("out.mp4".data)
      ⟨"00:00:00".data, "00:00:05".data, 3, 3, none⟩ 0 5 h0 h5 (by norm_num) (by norm_num)
      (by norm_num)⟩

/-- C1 counterexample: for the spec's own example (fade-in 3 s, fade-out 3 s,
segment 0-5 s, so the fades sum to more than 90% of the duration) the built
command still carries both fade filters — nothing is disabled. -/
theorem C1_fades_disabled_cex :
    (9 / 10 : ℚ) * 5 < 3 + 3 ∧
      (trimSegmentComplexCmd ("video.mp4".data)
          ⟨"00:00:00".data, "00:00:05".data, 3, 3, none⟩ ("out.mp4".data)).map videoFadesOf =
        .ok [⟨.fadeIn, 3, 0⟩, ⟨.fadeOut, 3, 2⟩] ∧
      ([⟨.fadeIn, 3, 0⟩, ⟨.fadeOut, 3, 2⟩] : List FadeFilter) ≠ [] := by
  have h0 : segTimeToSeconds ("00:00:00".data) = .ok 0 := by
    show segTimeToSeconds ['0', '0', ':', '0', '0', ':', '0', '0'] = .ok 0
    rw [seg_parse_plain (by decide) (by decide) (by decide) (by decide) (by decide) (by decide)]
    norm_num [show digitVal '0' = 0 from by decide]
  have h5 : segTimeToSeconds ("00:00:05".data) = .ok 5 := by
    show segTimeToSeconds ['0', '0', ':', '0', '0', ':', '0', '5'] = .ok 5
    rw [seg_parse_plain (by decide) (by decide) (by decide) (by decide) (by decide) (by decide)]
    norm_num [show digitVal '0' = 0 from by decide, show digitVal '5' = 5 from by decide]
  refine ⟨by norm_num, ?_, by simp⟩
  rw [trimSegmentComplexCmd]
  rw [show (⟨"00:00:00".data, "00:00:05".data, 3, 3, none⟩ : VideoSegment).start_time =
    ("00:00:00".data) from rfl]
  rw [show (⟨"00:00:00".data, "00:00:05".data, 3, 3, none⟩ : VideoSegment).end_time =
    ("00:00:05".data) from rfl]
  rw [h0, h5]
  show Except.map videoFadesOf (Except.ok _) = _
  rw [if_pos (Or.inl (by norm_num))]
  rw [if_pos (show (0 : ℚ) < (⟨"00:00:00".data, "00:00:05".data, 3, 3, none⟩ :
    VideoSegment).fade_in_duration from by norm_num)]
  rw [if_pos (show (0 : ℚ) < (⟨"00:00:00".data, "00:00:05".data, 3, 3, none⟩ :
    VideoSegment).fade_out_duration from by norm_num)]
  simp [Except.map, videoFadesOf]
  norm_num

end VideoTrimmer
namespace VideoTrimmer

theorem simple_opencv_mem (vp : VideoMeta) (seg : VideoSegment) (out : List Char)
    (env : FfmpegEnv) (h : Tier.opencv ∈ (trimWithFfmpegSimple vp seg out env).2) :
    env.simpleRun = .raised ∨ ∃ rc, env.simpleRun = .ran rc ∧ rc ≠ 0 := by
  rw [trimWithFfmpegSimple] at h
  split at h
  · next hm => exact Or.inl hm
  · next rc hm =>
    split at h
    · next hrc =>
      split at h <;> exact Or.inr ⟨rc, hm, hrc⟩
    · next hrc => simp at h

theorem simple_result_error {vp : VideoMeta} {seg : VideoSegment} {out : List Char}
    {env : FfmpegEnv} {e : TrimError} (he : trim_segment vp seg out = .error e)
    (hfail : env.simpleRun = .raised ∨ ∃ rc, env.simpleRun = .ran rc ∧ rc ≠ 0) :
    (trimWithFfmpegSimple vp seg out env).1 = .error e := by
  rw [trimWithFfmpegSimple]
  rcases hfail with hr | ⟨rc, hrc, hne⟩
  · rw [hr]
    exact he
  · rw [hrc]
    simp only [he]
    rw [if_pos hne]

theorem chain_error_propagates (vp : VideoMeta) (seg : VideoSegment) (out : List Char)
    (env : FfmpegEnv) (e : TrimError)
    (he : trim_segment vp seg out = .error e)
    (hcf : env.complexRun = .raised ∨ ∃ rc, env.complexRun = .ran rc ∧ rc ≠ 0)
    (hsf : env.simpleRun = .raised ∨ ∃ rc, env.simpleRun = .ran rc ∧ rc ≠ 0) :
    (trimWithFfmpeg vp seg out env).1 = .error e := by
  rw [trimWithFfmpeg]
  have hsimp := simple_result_error he hsf
  rcases hcf with hr | ⟨rc, hrc, hne⟩
  · rw [hr]
    exact hsimp
  · rw [hrc]
    simp only [ne_eq, hne, not_false_eq_true, if_true]
    split
    · next o tr hsm =>
      rw [hsm] at hsimp
      exact absurd hsimp (by simp)
    · next e0 tr hsm =>
      exact hsimp

/-- C2 (amended): each later tier of the trim chain runs only after the
previous external invocation failed (non-zero exit, or an exception — in
which case no output file was produced either); exhaustion of the two
ffmpeg tiers makes the OpenCV tier's error propagate to the caller; and
that error is invariant under renaming the segment, i.e. the propagated
error does not name the segment. -/
theorem C2_fallback_chain (vp : VideoMeta) (seg : VideoSegment) (out : List Char)
    (env : FfmpegEnv)
    (hc : env.complexRun = .raised → env.complexOutputOk = false)
    (hs : env.simpleRun = .raised → env.simpleOutputOk = false) :
    (Tier.ffmpegSimple ∈ (trimWithFfmpeg vp seg out env).2 →
      (∃ rc, env.complexRun = .ran rc ∧ rc ≠ 0) ∨ env.complexOutputOk = false) ∧
    (Tier.opencv ∈ (trimWithFfmpeg vp seg out env).2 →
      (((∃ rc, env.complexRun = .ran rc ∧ rc ≠ 0) ∨ env.complexOutputOk = false) ∧
        ((∃ rc, env.simpleRun = .ran rc ∧ rc ≠ 0) ∨ env.simpleOutputOk = false))) ∧
    (∀ e : TrimError,
      trim_segment vp seg out = .error e →
      (env.complexRun = .raised ∨ ∃ rc, env.complexRun = .ran rc ∧ rc ≠ 0) →
      (env.simpleRun = .raised ∨ ∃ rc, env.simpleRun = .ran rc ∧ rc ≠ 0) →
      (trimWithFfmpeg vp seg out env).1 = .error e) ∧
    (∀ n : Option (List Char),
      trimWithFfmpeg vp { seg with name := n } out env = trimWithFfmpeg vp seg out env) := by
  have conv : env.simpleRun = .raised ∨ (∃ rc, env.simpleRun = .ran rc ∧ rc ≠ 0) →
      (∃ rc, env.simpleRun = .ran rc ∧ rc ≠ 0) ∨ env.simpleOutputOk = false :=
    fun h => h.elim (fun hr => Or.inr (hs hr)) Or.inl
  refine ⟨?_, ?_, ?_, fun n => rfl⟩
  · intro hmem
    rw [trimWithFfmpeg] at hmem
    split at hmem
    · next hm => exact Or.inr (hc hm)
    · next rc hm =>
      split at hmem
      · next hrc => exact Or.inl ⟨rc, hm, hrc⟩
      · next hrc => simp at hmem
  · intro hmem
    rw [trimWithFfmpeg] at hmem
    split at hmem
    · next hm =>
      have hmem1 : Tier.opencv ∈ Tier.ffmpegComplex :: (trimWithFfmpegSimple vp seg out env).2 :=
        hmem
      simp only [List.mem_cons] at hmem1
      rcases hmem1 with h1 | h1
      · exact absurd h1 (by decide)
      · exact ⟨Or.inr (hc hm), conv (simple_opencv_mem vp seg out env h1)⟩
    · next rc hm =>
      split at hmem
      · next hrc =>
        refine ⟨Or.inl ⟨rc, hm, hrc⟩, conv ?_⟩
        split at hmem
        · next o tr hsm =>
          apply simple_opencv_mem vp seg out env
          rw [hsm]
          simp only [List.mem_cons] at hmem
          rcases hmem with h1 | h1
          · exact absurd h1 (by decide)
          · exact h1
        · next e0 tr hsm =>
          simp only [List.mem_cons] at hmem
          rcases hmem with h1 | h1
          · exact absurd h1 (by decide)
          · rcases List.mem_append.mp h1 with h2 | h2
            · apply simple_opencv_mem vp seg out env
              rw [hsm]
              exact h2
            · exact simple_opencv_mem vp seg out env h2
      · next hrc => simp at hmem
  · intro e he hcf hsf
    exact chain_error_propagates vp seg out env e he hcf hsf

end VideoTrimmer
namespace VideoTrimmer

theorem trim_segment_out_of_range_eval :
    trim_segment ⟨"v.mp4".data, true, 10, 25, 640, 480⟩
        ⟨"00:00:00".data, "00:00:20".data, 0, 0, some ("clip1".data)⟩ ("o.mp4".data) =
      .error (.outOfRange 10) := by
  have h0 : timecode_to_seconds ("00:00:00".data) = some 0 := by
    show timecode_to_seconds ['0', '0', ':', '0', '0', ':', '0', '0'] = some 0
    rw [parse_plain (by decide) (by decide) (by decide) (by decide) (by decide) (by decide)]
    norm_num [show digitVal '0' = 0 from by decide]
  have h20 : timecode_to_seconds ("00:00:20".data) = some 20 := by
    show timecode_to_seconds ['0', '0', ':', '0', '0', ':', '2', '0'] = some 20
    rw [parse_plain (by decide) (by decide) (by decide) (by decide) (by decide) (by decide)]
    norm_num [show digitVal '0' = 0 from by decide, show digitVal '2' = 2 from by decide]
  rw [trim_segment]
  rw [if_neg (by decide)]
  rw [show (⟨"00:00:00".data, "00:00:20".data, 0, 0, some ("clip1".data)⟩ :
    VideoSegment).start_time = ("00:00:00".data) from rfl]
  rw [show (⟨"00:00:00".data, "00:00:20".data, 0, 0, some ("clip1".data)⟩ :
    VideoSegment).end_time = ("00:00:20".data) from rfl]
  rw [h0, h20]
  simp only [if_pos (Or.inr (show (⟨"v.mp4".data, true, 10, 25, 640, 480⟩ :
    VideoMeta).duration < 20 from by norm_num))]

theorem C2_fallback_chain_witness :
    ((⟨.ran 1, .ran 1, false, false⟩ : FfmpegEnv).complexRun = .raised →
        (⟨.ran 1, .ran 1, false, false⟩ : FfmpegEnv).complexOutputOk = false) ∧
      trim_segment ⟨"v.mp4".data, true, 10, 25, 640, 480⟩
          ⟨"00:00:00".data, "00:00:20".data, 0, 0, some ("clip1".data)⟩ ("o.mp4".data) =
        .error (.outOfRange 10) ∧
      (trimWithFfmpeg ⟨"v.mp4".data, true, 10, 25, 640, 480⟩
          ⟨"00:00:00".data, "00:00:20".data, 0, 0, some ("clip1".data)⟩ ("o.mp4".data)
          ⟨.ran 1, .ran 1, false, false⟩).1 = .error (.outOfRange 10) := by
  refine ⟨fun h => absurd h (by decide), trim_segment_out_of_range_eval, ?_⟩
  exact (C2_fallback_chain ⟨"v.mp4".data, true, 10, 25, 640, 480⟩
      ⟨"00:00:00".data, "00:00:20".data, 0, 0, some ("clip1".data)⟩ ("o.mp4".data)
      ⟨.ran 1, .ran 1, false, false⟩ (fun h => absurd h (by decide))
      (fun h => absurd h (by decide))).2.2.1 (.outOfRange 10) trim_segment_out_of_range_eval
    (Or.inr ⟨1, rfl, by norm_num⟩) (Or.inr ⟨1, rfl, by norm_num⟩)

/-- C2 counterexample to "a processing error naming the segment": with both
ffmpeg tiers failing and the OpenCV tier rejecting the out-of-range segment,
the propagated error is `outOfRange 10` — it carries only the video
duration, and two segments that differ only in their name produce the very
same error, so the error cannot name the segment. -/
theorem C2_error_no_segment_name_cex :
    (trimWithFfmpeg ⟨"v.mp4".data, true, 10, 25, 640, 480⟩
        ⟨"00:00:00".data, "00:00:20".data, 0, 0, some ("clip1".data)⟩ ("o.mp4".data)
        ⟨.ran 1, .ran 1, false, false⟩).1 = .error (.outOfRange 10) ∧
      (trimWithFfmpeg ⟨"v.mp4".data, true, 10, 25, 640, 480⟩
          ⟨"00:00:00".data, "00:00:20".data, 0, 0, some ("other".data)⟩ ("o.mp4".data)
          ⟨.ran 1, .ran 1, false, false⟩).1 = .error (.outOfRange 10) ∧
      (some ("clip1".data) : Option (List Char)) ≠ some ("other".data) := by
  have h1 := chain_error_propagates ⟨"v.mp4".data, true, 10, 25, 640, 480⟩
    ⟨"00:00:00".data, "00:00:20".data, 0, 0, some ("clip1".data)⟩ ("o.mp4".data)
    ⟨.ran 1, .ran 1, false, false⟩ (.outOfRange 10) trim_segment_out_of_range_eval
    (Or.inr ⟨1, rfl, by norm_num⟩) (Or.inr ⟨1, rfl, by norm_num⟩)
  have h2 := chain_error_propagates ⟨"v.mp4".data, true, 10, 25, 640, 480⟩
    ⟨"00:00:00".data, "00:00:20".data, 0, 0, some ("other".data)⟩ ("o.mp4".data)
    ⟨.ran 1, .ran 1, false, false⟩ (.outOfRange 10) trim_segment_out_of_range_eval
    (Or.inr ⟨1, rfl, by norm_num⟩) (Or.inr ⟨1, rfl, by norm_num⟩)
  exact ⟨h1, h2, by decide⟩

end VideoTrimmer

namespace VideoTrimmer

theorem processLoop_ok (env : ℕ → Option TrimError) (n : ℕ)
    (h : ∀ i < n, env i = none) :
    processLoop env n =
      .ok ((List.range n).map fun i => .trimTo i (segFileName i),
        (List.range n).map segFileName) := by
  induction n with
  | zero => rfl
  | succ k ih =>
    rw [processLoop]
    rw [ih (fun i hi => h i (Nat.lt_succ_of_lt hi))]
    rw [h k (Nat.lt_succ_self k)]
    simp [List.range_succ]

/-- C5: with every per-segment trim succeeding, a one-element segment list
makes `process_segments` move the single trimmed file to the output path
(the action list holds no concatenation), while two or more segments end
with a concatenation of the per-segment files in order. -/
theorem C5_single_moves_multi_concats :
    (∀ (segments : List VideoSegment) (output_path : List Char) (env : ℕ → Option TrimError),
      segments.length = 1 → (∀ i < segments.length, env i = none) →
      process_segments segments output_path env =
        .ok [.trimTo 0 (segFileName 0), .move (segFileName 0) output_path]) ∧
    (∀ (segments : List VideoSegment) (output_path : List Char) (env : ℕ → Option TrimError),
      2 ≤ segments.length → (∀ i < segments.length, env i = none) →
      process_segments segments output_path env =
        .ok (((List.range segments.length).map fun i => .trimTo i (segFileName i)) ++
          [.concatFiles ((List.range segments.length).map segFileName) output_path])) := by
  constructor
  · intro segments output_path env hlen henv
    rw [process_segments, if_neg (by
      intro hemp
      rw [List.isEmpty_iff] at hemp
      rw [hemp] at hlen
      simp at hlen)]
    rw [processLoop_ok env segments.length henv, hlen]
    simp [List.range_succ, List.headD]
  · intro segments output_path env hlen henv
    rw [process_segments, if_neg (by
      intro hemp
      rw [List.isEmpty_iff] at hemp
      rw [hemp] at hlen
      simp at hlen)]
    rw [processLoop_ok env segments.length henv]
    have hne1 : ¬ (((List.range segments.length).map segFileName).length = 1) := by
      simp
      omega
    simp only [hne1, if_false]

theorem C5_single_moves_multi_concats_witness :
    process_segments [⟨"00:00:00".data, "00:00:01".data, 0, 0, none⟩] ("out.mp4".data)
        (fun _ => none) =
      .ok [.trimTo 0 (segFileName 0), .move (segFileName 0) ("out.mp4".data)] ∧
    process_segments [⟨"00:00:00".data, "00:00:01".data, 0, 0, none⟩,
        ⟨"00:00:01".data, "00:00:02".data, 0, 0, none⟩] ("out.mp4".data) (fun _ => none) =
      .ok (((List.range 2).map fun i => .trimTo i (segFileName i)) ++
        [.concatFiles ((List.range 2).map segFileName) ("out.mp4".data)]) :=
  ⟨C5_single_moves_multi_concats.1 _ _ _ rfl (fun _ _ => rfl),
    C5_single_moves_multi_concats.2 _ _ _ (by norm_num) (fun _ _ => rfl)⟩

end VideoTrimmer
